import Mathlib

/-!
Verification of the content-management backend's publish workflow.

The development shallowly embeds the Python services of the repository:

* `app/utils/text.py` — the slug generator (`slugify`,
  `_remove_vietnamese_accents`);
* `app/services/facebook_service.py` — permission checking, media upload
  routing and remote post deletion;
* `app/services/admin/news_service.py` — the content workflow orchestrator
  (`create_news`, `update_news`, `_publish_to_facebook`,
  `_delete_from_facebook`, `_resolve_asset_ids`, `_ensure_unique_slug`,
  `_save_facebook_post_log`, `_get_facebook_post_id`).

Strings are modelled as `List Char` where character-level processing matters
and as `String` elsewhere; database rows are records in explicit lists; the
network (Facebook Graph API, OAuth) is an oracle argument describing the
responses of the remote side.  SQLAlchemy's transaction is modelled by
returning the committed database from a successful run and leaving the
stored database untouched on an exception (`Except.error`), which is what
`db.rollback()` followed by re-raising achieves in the source.
-/

set_option maxHeartbeats 1000000
set_option maxRecDepth 8192

/-! ## Slug generator (`app/utils/text.py`) -/

/-- Explicit transliteration table of `_remove_vietnamese_accents`
(`app/utils/text.py`, the `vietnamese_map` dict). -/
def vietnameseMap : List (Char × Char) :=
  [('à','a'), ('á','a'), ('ạ','a'), ('ả','a'), ('ã','a'),
   ('â','a'), ('ầ','a'), ('ấ','a'), ('ậ','a'), ('ẩ','a'), ('ẫ','a'),
   ('ă','a'), ('ằ','a'), ('ắ','a'), ('ặ','a'), ('ẳ','a'), ('ẵ','a'),
   ('è','e'), ('é','e'), ('ẹ','e'), ('ẻ','e'), ('ẽ','e'),
   ('ê','e'), ('ề','e'), ('ế','e'), ('ệ','e'), ('ể','e'), ('ễ','e'),
   ('ì','i'), ('í','i'), ('ị','i'), ('ỉ','i'), ('ĩ','i'),
   ('ò','o'), ('ó','o'), ('ọ','o'), ('ỏ','o'), ('õ','o'),
   ('ô','o'), ('ồ','o'), ('ố','o'), ('ộ','o'), ('ổ','o'), ('ỗ','o'),
   ('ơ','o'), ('ờ','o'), ('ớ','o'), ('ợ','o'), ('ở','o'), ('ỡ','o'),
   ('ù','u'), ('ú','u'), ('ụ','u'), ('ủ','u'), ('ũ','u'),
   ('ư','u'), ('ừ','u'), ('ứ','u'), ('ự','u'), ('ử','u'), ('ữ','u'),
   ('ỳ','y'), ('ý','y'), ('ỵ','y'), ('ỷ','y'), ('ỹ','y'),
   ('đ','d'),
   ('À','a'), ('Á','a'), ('Ạ','a'), ('Ả','a'), ('Ã','a'),
   ('Â','a'), ('Ầ','a'), ('Ấ','a'), ('Ậ','a'), ('Ẩ','a'), ('Ẫ','a'),
   ('Ă','a'), ('Ằ','a'), ('Ắ','a'), ('Ặ','a'), ('Ẳ','a'), ('Ẵ','a'),
   ('È','e'), ('É','e'), ('Ẹ','e'), ('Ẻ','e'), ('Ẽ','e'),
   ('Ê','e'), ('Ề','e'), ('Ế','e'), ('Ệ','e'), ('Ể','e'), ('Ễ','e'),
   ('Ì','i'), ('Í','i'), ('Ị','i'), ('Ỉ','i'), ('Ĩ','i'),
   ('Ò','o'), ('Ó','o'), ('Ọ','o'), ('Ỏ','o'), ('Õ','o'),
   ('Ô','o'), ('Ồ','o'), ('Ố','o'), ('Ộ','o'), ('Ổ','o'), ('Ỗ','o'),
   ('Ơ','o'), ('Ờ','o'), ('Ớ','o'), ('Ợ','o'), ('Ở','o'), ('Ỡ','o'),
   ('Ù','u'), ('Ú','u'), ('Ụ','u'), ('Ủ','u'), ('Ũ','u'),
   ('Ư','u'), ('Ừ','u'), ('Ứ','u'), ('Ự','u'), ('Ử','u'), ('Ữ','u'),
   ('Ỳ','y'), ('Ý','y'), ('Ỵ','y'), ('Ỷ','y'), ('Ỹ','y'),
   ('Đ','d')]

/-- Dictionary lookup `char in vietnamese_map` of the source. -/
def vietLookup (c : Char) : Option Char :=
  (vietnameseMap.find? (fun p => p.1 == c)).map (fun p => p.2)

/-- Environment of locale/Unicode-dependent primitives used by the slug
generator.  `nfdStrip` is Python's per-character
`unicodedata.normalize('NFD', ·)` followed by dropping category-`Mn`
characters; `isSpace` decides Python's notion of whitespace (used both by
`str.strip()` and by the regex class `\s`); `lower` is Python's
per-character `str.lower()` (which may expand a character).  The theorems
over them assume only facts that hold of the real CPython functions. -/
structure TextEnv where
  nfdStrip : Char → List Char
  isSpace : Char → Bool
  lower : Char → List Char

/-- Embedding of `_remove_vietnamese_accents`: table lookup first, NFD
decomposition with combining-mark removal for every other character. -/
def removeVietnameseAccents (te : TextEnv) (s : List Char) : List Char :=
  (s.map (fun c =>
    match vietLookup c with
    | some r => [r]
    | none => te.nfdStrip c)).flatten

/-- Python's two-sided `str.strip(...)` over a character predicate. -/
def stripEnds (p : Char → Bool) (s : List Char) : List Char :=
  ((s.dropWhile p).reverse.dropWhile p).reverse

/-- Characters of the regex class `[a-z0-9-]` kept by `slugify`. -/
def isSlugChar (c : Char) : Bool :=
  ('a' ≤ c && c ≤ 'z') || ('0' ≤ c && c ≤ '9') || c == '-'

/-- Punctuation part of the separator class
`[\s_\.\,\!\?\:\;\(\)\[\]\{\}\"\'\/\\]` in `slugify` (whitespace `\s` is
`TextEnv.isSpace`). -/
def sepPunct : List Char :=
  ['_', '.', ',', '!', '?', ':', ';', '(', ')', '[', ']',
   '\x7b', '\x7d', '\"', '\'', '/', '\\']

/-- Full separator class of the first `re.sub` in `slugify`. -/
def isSepChar (te : TextEnv) (c : Char) : Bool :=
  te.isSpace c || sepPunct.contains c

/-- Replacement of every maximal run of `p`-characters by a single hyphen.
This is `re.sub(class+, "-", ·)`, and — because a run of length one is also
mapped to a single hyphen — it equally implements `re.sub(r"-{2,}", "-", ·)`
when `p` holds exactly of `'-'`. -/
def collapseRuns (p : Char → Bool) : List Char → List Char
  | [] => []
  | c :: cs =>
    if p c then '-' :: collapseRuns p (cs.dropWhile p)
    else c :: collapseRuns p cs
termination_by l => l.length
decreasing_by
  · simpa using Nat.lt_succ_of_le (List.dropWhile_sublist p).length_le
  · simp

/-- Embedding of `slugify` (`app/utils/text.py`): accent removal, strip,
lowercase, separator runs to hyphens, drop characters outside `[a-z0-9-]`,
collapse repeated hyphens, strip hyphens at both ends. -/
def slugify (te : TextEnv) (s : List Char) : List Char :=
  if s.isEmpty then []
  else
    let v1 := removeVietnameseAccents te s
    let v2 := stripEnds te.isSpace v1
    let v3 := (v2.map te.lower).flatten
    let v4 := collapseRuns (isSepChar te) v3
    let v5 := v4.filter isSlugChar
    let v6 := collapseRuns (fun c => c == '-') v5
    stripEnds (fun c => c == '-') v6

/-- String-typed wrapper of `slugify` used by the orchestrator. -/
def slugifyStr (te : TextEnv) (s : String) : String :=
  String.mk (slugify te s.toList)

/-- Concrete instantiation of the Unicode-dependent primitives: identity
decomposition, ASCII whitespace, identity lowering.  Used only to provide
closed evaluations of the parameterised theorems. -/
def asciiTextEnv : TextEnv where
  nfdStrip c := [c]
  isSpace c := c == ' ' || c == '\t' || c == '\n' || c == '\r'
  lower c := [c.toLower]

/-! ## Data model (`app/models/tables.py`, columns used by the workflow) -/

/-- `ContentStatus` enum (`app/models/enums.py`). -/
inductive ContentStatus
  | draft
  | published
  | archived
deriving DecidableEq

/-- `PostType` enum. -/
inductive PostType
  | news
  | announcement
deriving DecidableEq

/-- `JobStatus` enum. -/
inductive JobStatus
  | queued
  | processing
  | succeeded
  | failed
  | dead
deriving DecidableEq

/-- Row of `assets`; UUID public ids are modelled as naturals, the storage
url as an optional string (`NULL`/empty is `none`). -/
structure Asset where
  id : Nat
  publicId : Nat
  mimeType : String
  url : Option String
  deletedAt : Option Nat
deriving DecidableEq

/-- Row of `posts` (columns the workflow reads or writes; `public_id`,
`created_at` and the search vector never enter the claim logic). -/
structure Post where
  id : Nat
  postType : PostType
  status : ContentStatus
  title : String
  slug : String
  excerpt : Option String
  contentHtml : String
  metaTitle : Option String
  metaDescription : Option String
  publishedAt : Option Nat
  updatedAt : Nat
  deletedAt : Option Nat
deriving DecidableEq

/-- Row of `post_assets`. -/
structure PostAsset where
  postId : Nat
  assetId : Nat
  position : Nat
deriving DecidableEq

/-- Row of `post_revisions` (snapshot columns). -/
structure PostRevision where
  postId : Nat
  title : String
  excerpt : Option String
  contentHtml : String
deriving DecidableEq

/-- Row of `facebook_post_log` (columns used by the workflow). -/
structure FacebookPostLog where
  postId : Nat
  fbPostId : Option String
  status : JobStatus
deriving DecidableEq

/-- The relational state touched by the news workflow. -/
structure DB where
  posts : List Post
  assets : List Asset
  postAssets : List PostAsset
  revisions : List PostRevision
  fbLogs : List FacebookPostLog
deriving DecidableEq

/-- Acting admin user; its Facebook credential columns live behind the
token oracle. -/
structure User where
  id : Nat
deriving DecidableEq

/-- Error envelope of a raised `HTTPException`: HTTP status, error `code`,
human message, optional `action` hint and the public ids listed in an
`invalid_asset` message. -/
structure HErr where
  statusCode : Nat
  code : String
  message : String := ""
  action : Option String := none
  detail : List Nat := []
deriving DecidableEq

/-! ## Facebook service (`app/services/facebook_service.py`) -/

/-- Permissions required by `check_facebook_permissions`. -/
def requiredPermissions : List String :=
  ["pages_manage_posts", "pages_read_engagement"]

/-- Result dictionary of `check_facebook_permissions`. -/
structure PermResult where
  valid : Bool
  permissions : List String
  missingPermissions : List String
  error : Option String
deriving DecidableEq

/-- Remote behaviour during one `check_facebook_permissions` call:
the `/me` probe fails with a non-200 status; some exception is thrown
anywhere during the check; the `/me/permissions` probe returns non-200;
or it returns 200 with a `data` array of (permission, status) pairs. -/
inductive PermApiWorld
  | meNon200 (msg : String)
  | exn
  | permNon200
  | permOk (data : List (String × String))
deriving DecidableEq

/-- Embedding of `check_facebook_permissions(access_token)`.  The first
argument is the explicit token, the second the `FB_ACCESS_TOKEN`
environment fallback (`token = access_token or FB_ACCESS_TOKEN`). -/
def checkFacebookPermissions (accessToken envToken : Option String)
    (world : PermApiWorld) : PermResult :=
  match accessToken.orElse (fun _ => envToken) with
  | none =>
    { valid := false, permissions := [],
      missingPermissions := ["pages_manage_posts"],
      error := some "Token khong duoc set" }
  | some _ =>
    match world with
    | .meNon200 m =>
      { valid := false, permissions := [],
        missingPermissions := ["pages_manage_posts"], error := some m }
    | .exn =>
      { valid := true, permissions := [], missingPermissions := [],
        error := none }
    | .permNon200 =>
      { valid := true, permissions := [], missingPermissions := [],
        error := none }
    | .permOk data =>
      if data.isEmpty then
        { valid := true, permissions := requiredPermissions,
          missingPermissions := [], error := none }
      else
        let granted := data.filterMap
          (fun p => if p.2 == "granted" then some p.1 else none)
        let missing := requiredPermissions.filter
          (fun p => !(granted.contains p))
        { valid := missing.isEmpty, permissions := granted,
          missingPermissions := missing,
          error := if missing.isEmpty then none else some "Thieu permissions" }

/-- Permission gate at the top of `upload_video_to_facebook`: raise a
`ValueError` when the check reports the token invalid, proceed otherwise. -/
def videoPermissionGate (r : PermResult) : Except String Unit :=
  if r.valid then .ok () else .error "Token Facebook thieu quyen"

/-- Predicate `asset.mime_type.startswith("image/")` (string prefix test,
expressed over the character lists). -/
def assetStartsImage (a : Asset) : Bool := "image/".toList.isPrefixOf a.mimeType.toList

/-- Predicate `asset.mime_type.startswith("video/")`. -/
def assetStartsVideo (a : Asset) : Bool := "video/".toList.isPrefixOf a.mimeType.toList

/-- Per-photo upload loop of `upload_images_to_facebook`: the oracle gives,
for the i-th asset of the (already truncated) list, the Facebook photo id
(`none` covers an upload exception — logged and skipped by `continue` — or
a missing id in the response).  An asset with no stored url is skipped
without an upload attempt. -/
def uploadPhotosGo (po : Nat → Option String) (idx : Nat) :
    List Asset → List String
  | [] => []
  | a :: rest =>
    if a.url.isNone then uploadPhotosGo po (idx + 1) rest
    else
      match po idx with
      | some pid => pid :: uploadPhotosGo po (idx + 1) rest
      | none => uploadPhotosGo po (idx + 1) rest

/-- Photo ids collected by `upload_images_to_facebook` over
`all_images[:10]` (Facebook's 10-image cap). -/
def uploadPhotos (po : Nat → Option String) (images : List Asset) :
    List String :=
  uploadPhotosGo po 0 (images.take 10)

/-- Shape of the single `/feed` post created by
`upload_images_to_facebook`: several uploaded photos become a carousel,
one becomes a plain attached image, zero a text/link-only post. -/
inductive FeedStyle
  | carousel
  | singleImage
  | textOnly
deriving DecidableEq

/-- A remote Facebook post as created by the publisher: either one video
post (`upload_video_to_facebook`) or one feed post referencing the
uploaded photos. -/
inductive RemotePost
  | video (assetId : Nat)
  | feed (attached : List String) (style : FeedStyle)
deriving DecidableEq

/-- Media part of `upload_images_to_facebook`: upload up to ten images,
then create one `/feed` post whose `attached_media` lists exactly the
uploaded photo ids. -/
def uploadImagesToFacebook (po : Nat → Option String)
    (contentAssets : List Asset) : RemotePost :=
  let photoIds := uploadPhotos po contentAssets
  let style :=
    if photoIds.length > 1 then FeedStyle.carousel
    else if photoIds.length = 1 then FeedStyle.singleImage
    else FeedStyle.textOnly
  .feed photoIds style

/-- Media routing of `_publish_to_facebook`
(`app/services/admin/news_service.py`): any video asset wins and only the
first one is uploaded; otherwise the image assets go through
`upload_images_to_facebook`; with no media at all the same call produces a
text-only feed post. -/
def publishMediaRouting (po : Nat → Option String)
    (allAssets : List Asset) : RemotePost :=
  let fbImages := allAssets.filter assetStartsImage
  match allAssets.find? assetStartsVideo with
  | some v => .video v.id
  | none =>
    if fbImages.isEmpty then uploadImagesToFacebook po []
    else uploadImagesToFacebook po fbImages

/-- Remote behaviour of the `DELETE /{post-id}` call issued by
`delete_facebook_post`: HTTP 200 with `success` true or false, HTTP 404,
another error status, or a thrown exception. -/
inductive DeleteHttp
  | okTrue
  | okFalse
  | notFound
  | errorStatus
  | exn
deriving DecidableEq

/-- Embedding of `delete_facebook_post(fb_post_id, page_id, access_token)`
with the `FB_PAGE_ID`/`FB_ACCESS_TOKEN` environment fallbacks.  Every
branch, including the exception handler, resolves to a boolean — the
function never propagates an error. -/
def deleteFacebookPost (pageId accessToken envPageId envToken : Option String)
    (resp : DeleteHttp) : Bool :=
  let fbPageId := pageId.orElse (fun _ => envPageId)
  let fbToken := accessToken.orElse (fun _ => envToken)
  if fbPageId.isNone || fbToken.isNone then false
  else
    match resp with
    | .okTrue => true
    | .okFalse => false
    | .notFound => false
    | .errorStatus => false
    | .exn => false

/-! ## Content workflow orchestrator (`app/services/admin/news_service.py`) -/

/-- One outbound Facebook side effect made during an operation:
a publish (one `upload_video_to_facebook` / `upload_images_to_facebook`
call) or an unpublish (`delete_facebook_post` on a remote post id). -/
inductive FbCall
  | publish
  | unpublish (fbPostId : String)
deriving DecidableEq

/-- Trace of remote calls made so far, with per-kind counters indexing the
oracle. -/
structure Eff where
  calls : List FbCall := []
  uploadCount : Nat := 0
  deleteCount : Nat := 0
deriving DecidableEq

/-- Remote-world oracle for one orchestrator operation:
`token` is the outcome of `get_valid_facebook_token` (the `(page_id,
access_token)` pair, or the message of the raised `ValueError`); `upload n`
is the outcome of the n-th publish call (the returned Facebook post id,
`none` for a 200-response without id, or a raised error); `deleteResp n`
is the HTTP outcome of the n-th remote delete. -/
structure Oracle where
  token : Except String (String × String)
  upload : Nat → Except String (Option String)
  deleteResp : Nat → DeleteHttp
  envPageId : Option String := none
  envToken : Option String := none

/-- Existence test of `_ensure_unique_slug`: another non-deleted news post
with the same slug, optionally excluding the row being updated. -/
def slugConflict (db : DB) (slug : String) (excludePostId : Option Nat) : Bool :=
  db.posts.any (fun p =>
    p.postType == PostType.news && p.slug == slug && p.deletedAt == none &&
    (match excludePostId with
     | some i => p.id != i
     | none => true))

/-- Embedding of `_get_news_or_404`. -/
def getNewsOr404 (db : DB) (newsId : Nat) : Except HErr Post :=
  match db.posts.find? (fun p =>
      p.id == newsId && p.postType == PostType.news && p.deletedAt == none) with
  | some p => .ok p
  | none =>
    .error { statusCode := 404, code := "news_not_found",
             message := "Tin tuc khong ton tai." }

/-- Requested public id resolves to this non-deleted asset row. -/
def nonDeletedMatch (pids : List Nat) (a : Asset) : Bool :=
  pids.contains a.publicId && a.deletedAt == none

/-- Embedding of `_resolve_asset_ids`: fetch the non-deleted assets whose
public id is requested, fail listing every unresolvable id, otherwise map
the requested ids in caller order through the `public_id → id` dictionary
(built left to right, so a duplicated public id resolves to the last
matching row, hence the `reverse.find?`). -/
def resolveAssetIds (assets : List Asset) (assetPublicIds : Option (List Nat)) :
    Except HErr (List Nat) :=
  match assetPublicIds with
  | none => .ok []
  | some pids =>
    if pids.isEmpty then .ok []
    else
      let found := assets.filter (nonDeletedMatch pids)
      let missing := pids.filter (fun pid => !(found.any (fun a => a.publicId == pid)))
      if missing.isEmpty then
        .ok (pids.map (fun pid =>
          ((found.reverse.find? (fun a => a.publicId == pid)).map (fun a => a.id)).getD 0))
      else
        .error { statusCode := 400, code := "invalid_asset",
                 message := "Asset khong ton tai hoac da bi xoa", detail := missing }

/-- Embedding of `_get_facebook_post_id`: most recent log row of the post
carrying a remote id (the log is keyed one-to-one with the post). -/
def getFacebookPostId (db : DB) (postId : Nat) : Option String :=
  match db.fbLogs.find? (fun l => l.postId == postId && l.fbPostId.isSome) with
  | some l => l.fbPostId
  | none => none

/-- Update of the (first) log row of a post, as `db.scalar(select(...))`
followed by attribute mutation does. -/
def updateFirstLog (f : FacebookPostLog → FacebookPostLog) (postId : Nat) :
    List FacebookPostLog → List FacebookPostLog
  | [] => []
  | l :: ls =>
    if l.postId == postId then f l :: ls
    else l :: updateFirstLog f postId ls

/-- Embedding of `_save_facebook_post_log`: update the existing row of the
post or insert a fresh one. -/
def saveFacebookPostLog (db : DB) (postId : Nat) (fbPostId : String)
    (st : JobStatus) : DB :=
  if db.fbLogs.any (fun l => l.postId == postId) then
    let newLogs := updateFirstLog
      (fun l => { l with fbPostId := some fbPostId, status := st }) postId db.fbLogs
    { db with fbLogs := newLogs }
  else
    { db with fbLogs := db.fbLogs ++ [{ postId := postId, fbPostId := some fbPostId, status := st }] }

/-- Embedding of `_delete_from_facebook`: no recorded remote post is an
immediate `true`; otherwise the user token is attempted (a `ValueError`
falls back to the environment token), the remote delete is issued, and on
reported success the log row is marked succeeded.  The surrounding
`try/except` returns `False` on any error, so the function always returns
a boolean and never aborts the caller. -/
def deleteFromFacebook (o : Oracle) (db : DB) (eff : Eff) (postId : Nat)
    (user : Option User) : DB × Eff × Bool :=
  match getFacebookPostId db postId with
  | none => (db, eff, true)
  | some fbId =>
    let creds : Option String × Option String :=
      match user with
      | some _ =>
        match o.token with
        | .ok pt => (some pt.1, some pt.2)
        | .error _ => (none, none)
      | none => (none, none)
    let success := deleteFacebookPost creds.1 creds.2 o.envPageId o.envToken
      (o.deleteResp eff.deleteCount)
    let eff1 : Eff := { eff with calls := eff.calls ++ [.unpublish fbId],
                                 deleteCount := eff.deleteCount + 1 }
    let db1 :=
      if success then
        let newLogs := updateFirstLog (fun l => { l with status := .succeeded }) postId db.fbLogs
        { db with fbLogs := newLogs }
      else db
    (db1, eff1, success)

/-- Python exception escaping the body of `_publish_to_facebook`'s `try`:
an `HTTPException` or a `ValueError`/request error from the upload
helpers. -/
inductive PyExn
  | http (e : HErr)
  | valueError (msg : String)
deriving DecidableEq

/-- Rendering `str(e)` of a caught exception. -/
def pyExnMessage : PyExn → String
  | .http e => e.message
  | .valueError m => m

/-- Body of the `try` block of `_publish_to_facebook`.  With no user the
publish is skipped.  A `ValueError` from `get_valid_facebook_token` is
re-raised inside the `try` as the 400 `facebook_token_expired`
`HTTPException` carrying the `link_facebook` action.  Otherwise the assets
are fetched (no deleted filter in this query) and exactly one remote
publish call is made — the video/images/text-only branching of the source
picks the upload helper but each branch performs one call, abstracted by
`Oracle.upload`; the media routing itself is embedded separately as
`publishMediaRouting`.  A returned remote id is recorded via
`_save_facebook_post_log`. -/
def publishInner (o : Oracle) (db : DB) (eff : Eff) (post : Post)
    (assetPids : Option (List Nat)) (user : Option User) :
    Except PyExn (DB × Eff) :=
  match user with
  | none => .ok (db, eff)
  | some _ =>
    match o.token with
    | .error m =>
      .error (.http { statusCode := 400, code := "facebook_token_expired",
                      message := m, action := some "link_facebook" })
    | .ok _ =>
      let _allAssets :=
        match assetPids with
        | none => ([] : List Asset)
        | some pids =>
          if pids.isEmpty then []
          else db.assets.filter (fun a => pids.contains a.publicId)
      let upResult := o.upload eff.uploadCount
      let eff1 : Eff := { eff with calls := eff.calls ++ [.publish],
                                   uploadCount := eff.uploadCount + 1 }
      match upResult with
      | .error m => .error (.valueError m)
      | .ok fbIdOpt =>
        match fbIdOpt with
        | some fbId => .ok (saveFacebookPostLog db post.id fbId .succeeded, eff1)
        | none => .ok (db, eff1)

/-- Embedding of `_publish_to_facebook`: the `except Exception` handler
catches every exception raised inside the `try` — including the 400
`HTTPException` built for an expired token — rolls the transaction back
and re-raises the generic 500 `facebook_post_failed` error. -/
def publishToFacebook (o : Oracle) (db : DB) (eff : Eff) (post : Post)
    (assetPids : Option (List Nat)) (user : Option User) :
    Except HErr (DB × Eff) :=
  match publishInner o db eff post assetPids user with
  | .ok r => .ok r
  | .error e =>
    .error { statusCode := 500, code := "facebook_post_failed",
             message := "Dang bai len Facebook that bai: " ++ pyExnMessage e }

/-- Embedding of `_get_post_content_asset_public_ids`: `None` when the post
has no media rows, otherwise the public ids of the referenced non-deleted
assets (in asset-table order, as the second query of the source is
unordered). -/
def getPostContentAssetPublicIds (db : DB) (postId : Nat) : Option (List Nat) :=
  let postAssets := db.postAssets.filter (fun pa => pa.postId == postId)
  if postAssets.isEmpty then none
  else
    let assetIds := postAssets.map (fun pa => pa.assetId)
    some ((db.assets.filter (fun a => assetIds.contains a.id && a.deletedAt == none)).map
      (fun a => a.publicId))

/-- Update payload (`NewsUpdate` plus the `publish_to_facebook` flag the
routes pass, declared in the announcement schema).  `none` is an omitted
field, `some v` a supplied one; FastAPI collapses an explicit null to
`none` as well. -/
structure NewsUpdatePayload where
  title : Option String := none
  slug : Option String := none
  excerpt : Option String := none
  contentHtml : Option String := none
  status : Option ContentStatus := none
  metaTitle : Option String := none
  metaDescription : Option String := none
  contentAssetPublicIds : Option (List Nat) := none
  publishToFacebook : Option Bool := none
deriving DecidableEq

/-- Create payload (`NewsCreate` plus the `publish_to_facebook` flag). -/
structure NewsCreatePayload where
  title : String
  slug : Option String := none
  excerpt : Option String := none
  contentHtml : String := ""
  status : ContentStatus := .draft
  metaTitle : Option String := none
  metaDescription : Option String := none
  contentAssetPublicIds : Option (List Nat) := none
  publishToFacebook : Bool := true
deriving DecidableEq

/-- Title block of `update_news`: a supplied title is applied and the slug
re-derived from it, failing on an empty derivation (400 `invalid_slug`) or
a collision with another non-deleted news row (409 `slug_conflict`). -/
def applyTitle (te : TextEnv) (db : DB) (post : Post) (titleOpt : Option String) :
    Except HErr Post :=
  match titleOpt with
  | none => .ok post
  | some t =>
    let newSlug := slugifyStr te t
    if newSlug = "" then
      .error { statusCode := 400, code := "invalid_slug",
               message := "Khong the sinh slug hop le tu tieu de." }
    else if slugConflict db newSlug (some post.id) then
      .error { statusCode := 409, code := "slug_conflict",
               message := "Slug da duoc su dung cho mot tin tuc khac." }
    else
      .ok { post with title := t, slug := newSlug }

/-- The four plain `if payload.x is not None` assignments of
`update_news`. -/
def applySimpleFields (post : Post) (payload : NewsUpdatePayload) : Post :=
  let post :=
    match payload.excerpt with
    | none => post
    | some v => { post with excerpt := some v }
  let post :=
    match payload.contentHtml with
    | none => post
    | some v => { post with contentHtml := v }
  let post :=
    match payload.metaTitle with
    | none => post
    | some v => { post with metaTitle := some v }
  match payload.metaDescription with
  | none => post
  | some v => { post with metaDescription := some v }

/-- New media rows at positions `0..n-1` (`enumerate(asset_ids)`). -/
def postAssetRows (postId : Nat) (assetIds : List Nat) : List PostAsset :=
  assetIds.enum.map (fun pa => { postId := postId, assetId := pa.2, position := pa.1 })

/-- Media block of `update_news`: a supplied list first deletes every
`PostAsset` row of the post, then resolves and inserts the new rows in
payload order; an omitted list leaves the rows untouched. -/
def applyMedia (db : DB) (postId : Nat) (pidsOpt : Option (List Nat)) :
    Except HErr (DB × Bool) :=
  match pidsOpt with
  | none => .ok (db, false)
  | some pids =>
    let db1 : DB :=
      { db with postAssets := db.postAssets.filter (fun pa => pa.postId != postId) }
    if pids.isEmpty then .ok (db1, true)
    else
      match resolveAssetIds db1.assets (some pids) with
      | .error e => .error e
      | .ok assetIds =>
        .ok ({ db1 with postAssets := db1.postAssets ++ postAssetRows postId assetIds }, true)

/-- Status block of `update_news` (`if payload.status is not None: ...`). -/
def statusStep (o : Oracle) (db : DB) (eff : Eff) (post : Post)
    (previousStatus : ContentStatus) (payloadStatus : Option ContentStatus)
    (ptf : Option Bool) (user : Option User) (now : Nat) :
    Except HErr (Post × DB × Eff) :=
  match payloadStatus with
  | none => .ok (post, db, eff)
  | some st =>
    let post1 := { post with status := st }
    if previousStatus ≠ ContentStatus.published ∧ st = ContentStatus.published then
      let post2 := { post1 with publishedAt := some now }
      if ptf = none ∨ ptf = some true then
        match publishToFacebook o db eff post2 (getPostContentAssetPublicIds db post2.id) user with
        | .error e => .error e
        | .ok (db1, eff1) => .ok (post2, db1, eff1)
      else .ok (post2, db, eff)
    else if previousStatus = ContentStatus.published ∧ st ≠ ContentStatus.published then
      let post2 := { post1 with publishedAt := none }
      let r := deleteFromFacebook o db eff post2.id user
      .ok (post2, r.1, r.2.1)
    else if previousStatus = ContentStatus.published ∧ st = ContentStatus.published ∧ ptf ≠ none then
      if ptf = some false then
        let r := deleteFromFacebook o db eff post1.id user
        .ok (post1, r.1, r.2.1)
      else
        match getFacebookPostId db post1.id with
        | some _ => .ok (post1, db, eff)
        | none =>
          match publishToFacebook o db eff post1 (getPostContentAssetPublicIds db post1.id) user with
          | .error e => .error e
          | .ok (db1, eff1) => .ok (post1, db1, eff1)
    else .ok (post1, db, eff)

/-- Union of the `payload.x is not None` tests guarding the re-publish of
an already-published post in `update_news`. -/
def hasContentChanges (payload : NewsUpdatePayload) : Bool :=
  payload.title.isSome || payload.contentHtml.isSome || payload.excerpt.isSome ||
  payload.slug.isSome || payload.contentAssetPublicIds.isSome ||
  payload.metaTitle.isSome || payload.metaDescription.isSome

/-- Re-sync block of `update_news` for a post that stays published while
its content changed: delete the old remote post (best effort), then —
unless Facebook sync was explicitly turned off — publish the new
content. -/
def contentSyncStep (o : Oracle) (db : DB) (eff : Eff) (post : Post)
    (previousStatus : ContentStatus) (changed : Bool)
    (ptf : Option Bool) (user : Option User) :
    Except HErr (DB × Eff) :=
  if post.status = ContentStatus.published ∧ previousStatus = ContentStatus.published ∧ changed then
    if ptf = some false then
      let r := deleteFromFacebook o db eff post.id user
      .ok (r.1, r.2.1)
    else
      let r := deleteFromFacebook o db eff post.id user
      if ptf ≠ some false then
        publishToFacebook o r.1 r.2.1 post (getPostContentAssetPublicIds r.1 post.id) user
      else .ok (r.1, r.2.1)
  else .ok (db, eff)

/-- ORM identity: the mutated post object replaces its row at commit. -/
def mergePost (db : DB) (post : Post) : DB :=
  { db with posts := db.posts.map (fun p => if p.id == post.id then post else p) }

/-- Revision snapshot appended by every create/update. -/
def appendRevision (db : DB) (post : Post) : DB :=
  { db with revisions := db.revisions ++
      [{ postId := post.id, title := post.title, excerpt := post.excerpt,
         contentHtml := post.contentHtml }] }

/-- Embedding of `update_news`: look the post up, apply title (with slug
re-derivation), the simple fields, the media replacement, the status block
and the re-sync block, stamp `updated_at`, append the revision and commit.
An `Except.error` is a raised `HTTPException`; the commit never runs on
that path, so the stored database is unchanged (see
`committedAfterUpdate`). -/
def updateNews (te : TextEnv) (o : Oracle) (db : DB) (newsId : Nat)
    (payload : NewsUpdatePayload) (user : Option User) (now : Nat) :
    Except HErr (DB × Eff) :=
  match getNewsOr404 db newsId with
  | .error e => .error e
  | .ok post =>
    let previousStatus := post.status
    match applyTitle te db post payload.title with
    | .error e => .error e
    | .ok post1 =>
      let post2 := applySimpleFields post1 payload
      match applyMedia db post2.id payload.contentAssetPublicIds with
      | .error e => .error e
      | .ok (db1, _changed) =>
        let ptf := payload.publishToFacebook
        match statusStep o db1 {} post2 previousStatus payload.status ptf user now with
        | .error e => .error e
        | .ok (post3, db2, eff1) =>
          match contentSyncStep o db2 eff1 post3 previousStatus (hasContentChanges payload) ptf user with
          | .error e => .error e
          | .ok (db3, eff2) =>
            let post4 := { post3 with updatedAt := now }
            .ok (appendRevision (mergePost db3 post4) post4, eff2)

/-- Slug chosen by `create_news`: `payload.slug or slugify(payload.title)`
(an empty supplied slug is falsy in Python and falls through to the
derivation). -/
def createSlug (te : TextEnv) (payload : NewsCreatePayload) : String :=
  match payload.slug with
  | some s => if s = "" then slugifyStr te payload.title else s
  | none => slugifyStr te payload.title

/-- Embedding of `create_news`: slug from payload or derived from the
title, uniqueness check, row insertion, media resolution, revision, and —
when created directly as published with sync on — the synchronous Facebook
publish before the commit. -/
def createNews (te : TextEnv) (o : Oracle) (db : DB) (payload : NewsCreatePayload)
    (user : Option User) (now newId : Nat) : Except HErr (DB × Eff) :=
  let slug := createSlug te payload
  if slug = "" then
    .error { statusCode := 400, code := "invalid_slug",
             message := "Khong the sinh slug hop le tu tieu de." }
  else if slugConflict db slug none then
    .error { statusCode := 409, code := "slug_conflict",
             message := "Slug da duoc su dung cho mot tin tuc khac." }
  else
    let publishedAt := if payload.status = ContentStatus.published then some now else none
    let post : Post :=
      { id := newId, postType := .news, status := payload.status,
        title := payload.title, slug := slug, excerpt := payload.excerpt,
        contentHtml := payload.contentHtml, metaTitle := payload.metaTitle,
        metaDescription := payload.metaDescription, publishedAt := publishedAt,
        updatedAt := now, deletedAt := none }
    let db1 : DB := { db with posts := db.posts ++ [post] }
    let resolved : Except HErr (List Nat) :=
      match payload.contentAssetPublicIds with
      | none => .ok []
      | some pids => if pids.isEmpty then .ok [] else resolveAssetIds db1.assets (some pids)
    match resolved with
    | .error e => .error e
    | .ok assetIds =>
      let db2 : DB := { db1 with postAssets := db1.postAssets ++ postAssetRows newId assetIds }
      let db3 := appendRevision db2 post
      if payload.status = ContentStatus.published ∧ payload.publishToFacebook then
        publishToFacebook o db3 {} post payload.contentAssetPublicIds user
      else .ok (db3, {})

/-- Database visible after `update_news` returns or raises: the commit
applies the successful run, the raised path leaves the stored rows as they
were (`db.rollback()` plus never reaching `db.commit()`). -/
def committedAfterUpdate (te : TextEnv) (o : Oracle) (db : DB) (newsId : Nat)
    (payload : NewsUpdatePayload) (user : Option User) (now : Nat) : DB :=
  match updateNews te o db newsId payload user now with
  | .ok r => r.1
  | .error _ => db

/-- Database visible after `create_news` returns or raises. -/
def committedAfterCreate (te : TextEnv) (o : Oracle) (db : DB)
    (payload : NewsCreatePayload) (user : Option User) (now newId : Nat) : DB :=
  match createNews te o db payload user now newId with
  | .ok r => r.1
  | .error _ => db

/-! ## Concrete instances for closed evaluations -/

/-- Oracle of a remote side whose token refresh fails and whose uploads
and deletes all fail. -/
def oracleFail : Oracle :=
  { token := .error "Long-lived User Token da het han",
    upload := fun _ => .error "network down",
    deleteResp := fun _ => .exn }

/-- Oracle of a healthy remote side: a valid page credential, uploads that
return the remote id `fb-new`, deletes that report success. -/
def oracleOk : Oracle :=
  { token := .ok ("page-1", "token-1"),
    upload := fun _ => .ok (some "fb-new"),
    deleteResp := fun _ => .okTrue }

/-- A published news post with id 1 and a previously synced remote post. -/
def postPub : Post :=
  { id := 1, postType := .news, status := .published, title := "Tin cu",
    slug := "tin-cu", excerpt := none, contentHtml := "noi dung cu",
    metaTitle := none, metaDescription := none, publishedAt := some 5,
    updatedAt := 5, deletedAt := none }

/-- A draft news post with id 2. -/
def postDraft : Post :=
  { id := 2, postType := .news, status := .draft, title := "Ban nhap",
    slug := "ban-nhap", excerpt := none, contentHtml := "noi dung nhap",
    metaTitle := none, metaDescription := none, publishedAt := none,
    updatedAt := 5, deletedAt := none }

/-- A stored image asset. -/
def assetImg : Asset :=
  { id := 10, publicId := 100, mimeType := "image/png",
    url := some "/uploads/images/a.png", deletedAt := none }

/-- A stored video asset. -/
def assetVid : Asset :=
  { id := 20, publicId := 200, mimeType := "video/mp4",
    url := some "/uploads/videos/v.mp4", deletedAt := none }

/-- Database holding the published post, its publish log (remote id
`fb-old`) and both assets. -/
def dbPub : DB :=
  { posts := [postPub], assets := [assetImg, assetVid], postAssets := [],
    revisions := [],
    fbLogs := [{ postId := 1, fbPostId := some "fb-old", status := .succeeded }] }

/-- Database holding only the draft post and the two assets. -/
def dbDraft : DB :=
  { posts := [postDraft], assets := [assetImg, assetVid], postAssets := [],
    revisions := [], fbLogs := [] }

/-! ## Lemmas about the slug pipeline -/

theorem collapseRuns_nil (p : Char → Bool) : collapseRuns p [] = [] := by
  simp [collapseRuns]

theorem collapseRuns_cons (p : Char → Bool) (c : Char) (cs : List Char) :
    collapseRuns p (c :: cs) =
      if p c then '-' :: collapseRuns p (cs.dropWhile p)
      else c :: collapseRuns p cs := by
  simp [collapseRuns]

theorem dropWhile_eq_self_of_head (p : Char → Bool) (l : List Char)
    (h : ∀ c, l.head? = some c → p c = false) : l.dropWhile p = l := by
  cases l with
  | nil => rfl
  | cons c cs => exact List.dropWhile_cons_of_neg (by simp [h c rfl])

theorem head?_of_prefix_cons {a : Char} {t X : List Char} (h : a :: t <+: X) :
    X.head? = some a := by
  rcases h with ⟨r, rfl⟩
  simp

theorem mem_collapseRuns (p : Char → Bool) :
    ∀ (l : List Char), ∀ c ∈ collapseRuns p l, c = '-' ∨ (c ∈ l ∧ p c = false)
  | [] => by simp [collapseRuns_nil]
  | d :: cs => by
    intro c hc
    rw [collapseRuns_cons] at hc
    by_cases hp : p d
    · rw [if_pos hp] at hc
      rcases List.mem_cons.mp hc with rfl | hmem
      · exact Or.inl rfl
      · rcases mem_collapseRuns p (cs.dropWhile p) c hmem with h | ⟨h1, h2⟩
        · exact Or.inl h
        · exact Or.inr ⟨List.mem_cons_of_mem _ ((List.dropWhile_sublist p).subset h1), h2⟩
    · rw [if_neg hp] at hc
      rcases List.mem_cons.mp hc with rfl | hmem
      · exact Or.inr ⟨List.mem_cons_self _ _, by simpa using hp⟩
      · rcases mem_collapseRuns p cs c hmem with h | ⟨h1, h2⟩
        · exact Or.inl h
        · exact Or.inr ⟨List.mem_cons_of_mem _ h1, h2⟩
termination_by l => l.length
decreasing_by
  · simpa using Nat.lt_succ_of_le (List.dropWhile_sublist p).length_le
  · simp

theorem collapseRuns_head_hyphen :
    ∀ (l : List Char),
      (collapseRuns (fun c => c == '-') l).head? = some '-' → l.head? = some '-'
  | [] => by simp [collapseRuns_nil]
  | c :: cs => by
    intro h
    rw [collapseRuns_cons] at h
    by_cases hp : (c == '-') = true
    · simp [beq_iff_eq.mp hp]
    · rw [if_neg hp] at h
      simp only [List.head?_cons, Option.some.injEq] at h
      exact absurd (beq_iff_eq.mpr h) hp

theorem collapseRuns_hyphen_noDouble :
    ∀ (l : List Char), ¬ (['-', '-'] <:+: collapseRuns (fun c => c == '-') l)
  | [] => by simp [collapseRuns_nil]
  | c :: cs => by
    rw [collapseRuns_cons]
    by_cases hp : (c == '-') = true
    · rw [if_pos hp]
      intro hinf
      rcases List.infix_cons_iff.mp hinf with hpre | hinf2
      · rcases List.cons_prefix_cons.mp hpre with ⟨-, hpre2⟩
        have hx := head?_of_prefix_cons hpre2
        have hy := collapseRuns_head_hyphen _ hx
        have hz := List.head?_dropWhile_not (fun c => c == '-') cs
        rw [hy] at hz
        simp at hz
      · exact collapseRuns_hyphen_noDouble (cs.dropWhile _) hinf2
    · rw [if_neg hp]
      intro hinf
      rcases List.infix_cons_iff.mp hinf with hpre | hinf2
      · rcases List.cons_prefix_cons.mp hpre with ⟨heq, -⟩
        exact hp (beq_iff_eq.mpr heq.symm)
      · exact collapseRuns_hyphen_noDouble cs hinf2
termination_by l => l.length
decreasing_by
  · simpa using Nat.lt_succ_of_le (List.dropWhile_sublist (fun c => c == '-')).length_le
  · simp

theorem collapseRuns_eq_self (p : Char → Bool) :
    ∀ (l : List Char), (∀ c ∈ l, p c = false) → collapseRuns p l = l
  | [] => fun _ => collapseRuns_nil p
  | c :: cs => fun h => by
    rw [collapseRuns_cons, if_neg (by simp [h c (List.mem_cons_self c cs)]),
      collapseRuns_eq_self p cs (fun d hd => h d (List.mem_cons_of_mem c hd))]

theorem collapseRuns_hyphen_eq_self :
    ∀ (l : List Char), ¬ (['-', '-'] <:+: l) →
      collapseRuns (fun c => c == '-') l = l
  | [] => fun _ => collapseRuns_nil _
  | c :: cs => fun h => by
    rw [collapseRuns_cons]
    by_cases hp : (c == '-') = true
    · rw [if_pos hp]
      have hc : c = '-' := beq_iff_eq.mp hp
      subst hc
      have hhead : ∀ d, cs.head? = some d → (d == '-') = false := by
        intro d hd
        by_contra hdd
        simp only [Bool.not_eq_false, beq_iff_eq] at hdd
        subst hdd
        cases cs with
        | nil => simp at hd
        | cons e t =>
          simp only [List.head?_cons, Option.some.injEq] at hd
          subst hd
          exact h (List.IsPrefix.isInfix ⟨t, rfl⟩)
      rw [dropWhile_eq_self_of_head _ _ hhead,
        collapseRuns_hyphen_eq_self cs (fun h2 => h (List.infix_cons h2))]
    · rw [if_neg hp,
        collapseRuns_hyphen_eq_self cs (fun h2 => h (List.infix_cons h2))]

theorem stripEnds_subset (p : Char → Bool) (l : List Char) : stripEnds p l ⊆ l := by
  intro c hc
  unfold stripEnds at hc
  rw [List.mem_reverse] at hc
  have h1 := (List.dropWhile_sublist p).subset hc
  rw [List.mem_reverse] at h1
  exact (List.dropWhile_sublist p).subset h1

theorem stripEnds_infix_self (p : Char → Bool) (l : List Char) : stripEnds p l <:+: l := by
  unfold stripEnds
  have h1 : ((l.dropWhile p).reverse.dropWhile p).reverse <:+: ((l.dropWhile p).reverse).reverse :=
    List.reverse_infix.mpr (List.dropWhile_suffix p).isInfix
  rw [List.reverse_reverse] at h1
  exact h1.trans (List.dropWhile_suffix p).isInfix

theorem stripEnds_head? (p : Char → Bool) (l : List Char) (c : Char)
    (h : (stripEnds p l).head? = some c) : p c = false := by
  unfold stripEnds at h
  rw [List.head?_reverse] at h
  obtain ⟨t, ht⟩ := List.dropWhile_suffix (l := (l.dropWhile p).reverse) p
  have hlast : ((l.dropWhile p).reverse).getLast? = some c := by
    rw [← ht, List.getLast?_append, h]
    rfl
  rw [List.getLast?_reverse] at hlast
  have hd := List.head?_dropWhile_not p l
  rw [hlast] at hd
  exact hd

theorem stripEnds_getLast? (p : Char → Bool) (l : List Char) (c : Char)
    (h : (stripEnds p l).getLast? = some c) : p c = false := by
  unfold stripEnds at h
  rw [List.getLast?_reverse] at h
  have hd := List.head?_dropWhile_not p (l.dropWhile p).reverse
  rw [h] at hd
  exact hd

theorem stripEnds_eq_self (p : Char → Bool) (l : List Char)
    (hh : ∀ c, l.head? = some c → p c = false)
    (hl : ∀ c, l.getLast? = some c → p c = false) : stripEnds p l = l := by
  unfold stripEnds
  rw [dropWhile_eq_self_of_head p l hh,
    dropWhile_eq_self_of_head p l.reverse
      (by intro c hc; rw [List.head?_reverse] at hc; exact hl c hc),
    List.reverse_reverse]

theorem stripEnds_of_all (p : Char → Bool) (l : List Char)
    (h : ∀ c ∈ l, p c = false) : stripEnds p l = l := by
  apply stripEnds_eq_self
  · intro c hc
    cases l with
    | nil => simp at hc
    | cons d ds =>
      simp only [List.head?_cons, Option.some.injEq] at hc
      exact hc ▸ h d (List.mem_cons_self d ds)
  · intro c hc
    have hmem : c ∈ l := by
      rw [← List.head?_reverse] at hc
      cases hrev : l.reverse with
      | nil => rw [hrev] at hc; simp at hc
      | cons d ds =>
        rw [hrev] at hc
        simp only [List.head?_cons, Option.some.injEq] at hc
        rw [← List.mem_reverse, hrev, hc]
        exact List.mem_cons_self _ _
    exact h c hmem

theorem slugChar_toNat_lt (c : Char) (h : isSlugChar c = true) : c.toNat < 123 := by
  have hh : c.toNat = c.val.toBitVec.toNat := rfl
  simp only [isSlugChar, Bool.or_eq_true, Bool.and_eq_true, decide_eq_true_eq,
    beq_iff_eq] at h
  rcases h with (⟨-, h2⟩ | ⟨-, h2⟩) | rfl
  · rw [Char.le_def, UInt32.le_def, BitVec.le_def] at h2
    simp at h2
    rw [hh]
    omega
  · rw [Char.le_def, UInt32.le_def, BitVec.le_def] at h2
    simp at h2
    rw [hh]
    omega
  · decide

theorem vietLookup_slug (c : Char) (h : isSlugChar c = true) : vietLookup c = none := by
  unfold vietLookup
  have hfind : vietnameseMap.find? (fun p => p.1 == c) = none := by
    rw [List.find?_eq_none]
    intro x hx hbeq
    have hkeys : ∀ y ∈ vietnameseMap, 191 < y.1.toNat := by decide
    have h1 := hkeys x hx
    have h2 : x.1 = c := beq_iff_eq.mp hbeq
    have h3 := slugChar_toNat_lt c h
    rw [h2] at h1
    omega
  rw [hfind]
  rfl

theorem removeVietnameseAccents_cons (te : TextEnv) (c : Char) (cs : List Char) :
    removeVietnameseAccents te (c :: cs) =
      (match vietLookup c with
       | some r => [r]
       | none => te.nfdStrip c) ++ removeVietnameseAccents te cs := by
  simp [removeVietnameseAccents]

theorem removeVietnameseAccents_eq_self (te : TextEnv) (l : List Char)
    (hnfd : ∀ c, isSlugChar c = true → te.nfdStrip c = [c])
    (h : ∀ c ∈ l, isSlugChar c = true) :
    removeVietnameseAccents te l = l := by
  induction l with
  | nil => rfl
  | cons c cs ih =>
    rw [removeVietnameseAccents_cons, vietLookup_slug c (h c (List.mem_cons_self c cs)),
      hnfd c (h c (List.mem_cons_self c cs)),
      ih (fun d hd => h d (List.mem_cons_of_mem c hd))]
    rfl

theorem flatten_map_lower (te : TextEnv) (l : List Char)
    (hlow : ∀ c, isSlugChar c = true → te.lower c = [c])
    (h : ∀ c ∈ l, isSlugChar c = true) :
    (l.map te.lower).flatten = l := by
  induction l with
  | nil => rfl
  | cons c cs ih =>
    simp only [List.map_cons, List.flatten_cons]
    rw [hlow c (h c (List.mem_cons_self c cs)),
      ih (fun d hd => h d (List.mem_cons_of_mem c hd))]
    rfl

theorem slugChar_not_sepPunct (c : Char) (h : isSlugChar c = true) :
    sepPunct.contains c = false := by
  have hall : ∀ d ∈ sepPunct, isSlugChar d = false := by decide
  by_contra hcon
  simp only [Bool.not_eq_false, List.contains_eq_any_beq, List.any_eq_true,
    beq_iff_eq] at hcon
  obtain ⟨d, hd, hcd⟩ := hcon
  rw [hcd] at h
  rw [hall d hd] at h
  exact Bool.false_ne_true h

theorem slugify_eq_pipeline (te : TextEnv) (x : List Char) (hx : x.isEmpty = false) :
    slugify te x =
      stripEnds (fun c => c == '-')
        (collapseRuns (fun c => c == '-')
          ((collapseRuns (isSepChar te)
            (((stripEnds te.isSpace (removeVietnameseAccents te x)).map te.lower).flatten)).filter
              isSlugChar)) := by
  simp [slugify, hx]

theorem slugify_out_props (te : TextEnv) (x : List Char) :
    (∀ c ∈ slugify te x, isSlugChar c = true) ∧
    ¬ (['-', '-'] <:+: slugify te x) ∧
    (slugify te x).head? ≠ some '-' ∧
    (slugify te x).getLast? ≠ some '-' := by
  by_cases hx : x.isEmpty
  · simp [slugify, hx]
  · rw [slugify_eq_pipeline te x (by simpa using hx)]
    refine ⟨?_, ?_, ?_, ?_⟩
    · intro c hc
      have h1 := stripEnds_subset _ _ hc
      rcases mem_collapseRuns _ _ c h1 with rfl | ⟨h2, -⟩
      · decide
      · exact (List.mem_filter.mp h2).2
    · intro hinf
      exact collapseRuns_hyphen_noDouble _ (hinf.trans (stripEnds_infix_self _ _))
    · intro hh
      have h2 := stripEnds_head? _ _ _ hh
      simp at h2
    · intro hh
      have h2 := stripEnds_getLast? _ _ _ hh
      simp at h2

theorem slugify_fixed (te : TextEnv)
    (hnfd : ∀ c, isSlugChar c = true → te.nfdStrip c = [c])
    (hsp : ∀ c, isSlugChar c = true → te.isSpace c = false)
    (hlow : ∀ c, isSlugChar c = true → te.lower c = [c])
    (y : List Char)
    (hmem : ∀ c ∈ y, isSlugChar c = true)
    (hnd : ¬ (['-', '-'] <:+: y))
    (hhead : y.head? ≠ some '-')
    (hlast : y.getLast? ≠ some '-') :
    slugify te y = y := by
  by_cases hy : y.isEmpty
  · rw [List.isEmpty_iff.mp hy]
    simp [slugify]
  · rw [slugify_eq_pipeline te y (by simpa using hy)]
    rw [removeVietnameseAccents_eq_self te y hnfd hmem]
    rw [stripEnds_of_all te.isSpace y (fun c hc => hsp c (hmem c hc))]
    rw [flatten_map_lower te y hlow hmem]
    rw [collapseRuns_eq_self (isSepChar te) y (by
      intro c hc
      simp only [isSepChar, Bool.or_eq_false_iff]
      exact ⟨hsp c (hmem c hc), slugChar_not_sepPunct c (hmem c hc)⟩)]
    rw [List.filter_eq_self.mpr (fun c hc => hmem c hc)]
    rw [collapseRuns_hyphen_eq_self y hnd]
    apply stripEnds_eq_self
    · intro c hc
      by_contra hb
      simp only [Bool.not_eq_false, beq_iff_eq] at hb
      subst hb
      exact hhead hc
    · intro c hc
      by_contra hb
      simp only [Bool.not_eq_false, beq_iff_eq] at hb
      subst hb
      exact hlast hc

/-- C4: for every input string, the output of `slugify` contains only
lowercase ASCII letters, digits and hyphens, never contains two
consecutive hyphens, never starts or ends with a hyphen, and `slugify` is
idempotent.  The Unicode-dependent primitives (`unicodedata` NFD
decomposition, Python whitespace, `str.lower`) are quantified over,
assuming only that they fix the characters of the slug alphabet — facts
true of the real CPython functions. -/
theorem claim_C4_slugify (te : TextEnv)
    (hnfd : ∀ c, isSlugChar c = true → te.nfdStrip c = [c])
    (hsp : ∀ c, isSlugChar c = true → te.isSpace c = false)
    (hlow : ∀ c, isSlugChar c = true → te.lower c = [c])
    (x : List Char) :
    (∀ c ∈ slugify te x, isSlugChar c = true) ∧
    ¬ (['-', '-'] <:+: slugify te x) ∧
    (slugify te x).head? ≠ some '-' ∧
    (slugify te x).getLast? ≠ some '-' ∧
    slugify te (slugify te x) = slugify te x := by
  obtain ⟨h1, h2, h3, h4⟩ := slugify_out_props te x
  exact ⟨h1, h2, h3, h4, slugify_fixed te hnfd hsp hlow _ h1 h2 h3 h4⟩

theorem slugChar_toLower (c : Char) (h : isSlugChar c = true) : c.toLower = c := by
  have hh : c.toNat = c.val.toBitVec.toNat := rfl
  simp only [isSlugChar, Bool.or_eq_true, Bool.and_eq_true, decide_eq_true_eq,
    beq_iff_eq] at h
  unfold Char.toLower
  rcases h with (⟨h1, -⟩ | ⟨-, h2⟩) | rfl
  · rw [Char.le_def, UInt32.le_def, BitVec.le_def] at h1
    simp at h1
    rw [if_neg]
    omega
  · rw [Char.le_def, UInt32.le_def, BitVec.le_def] at h2
    simp at h2
    rw [if_neg]
    omega
  · decide

/-- Witness for C4: the parameterised theorem applied to the concrete
`asciiTextEnv` primitives (which fix the slug alphabet) and one concrete
input string. -/
theorem claim_C4_slugify_witness :
    (∀ c ∈ slugify asciiTextEnv "  Tin Tuc!! Moi __ 2025  ".toList, isSlugChar c = true) ∧
    ¬ (['-', '-'] <:+: slugify asciiTextEnv "  Tin Tuc!! Moi __ 2025  ".toList) ∧
    (slugify asciiTextEnv "  Tin Tuc!! Moi __ 2025  ".toList).head? ≠ some '-' ∧
    (slugify asciiTextEnv "  Tin Tuc!! Moi __ 2025  ".toList).getLast? ≠ some '-' ∧
    slugify asciiTextEnv (slugify asciiTextEnv "  Tin Tuc!! Moi __ 2025  ".toList) =
      slugify asciiTextEnv "  Tin Tuc!! Moi __ 2025  ".toList :=
  claim_C4_slugify asciiTextEnv
    (fun _ _ => rfl)
    (by
      intro c h
      simp only [asciiTextEnv, Bool.or_eq_false_iff, beq_eq_false_iff_ne, ne_eq]
      refine ⟨⟨⟨?_, ?_⟩, ?_⟩, ?_⟩ <;> (intro hcc; rw [hcc] at h; exact absurd h (by decide)))
    (by
      intro c h
      show [c.toLower] = [c]
      rw [slugChar_toLower c h])
    "  Tin Tuc!! Moi __ 2025  ".toList

/-! ## Claims about the Facebook service -/

/-- C8: `delete_facebook_post` never raises to its caller: it returns
`true` exactly when credentials are present and the remote delete reports
success, and `false` on remote not-found, on a reported failure, on any
other error status, and on a thrown exception; and the orchestrator's
published → archived transition always commits locally regardless of the
unpublish outcome (the status block returns successfully for every
oracle). -/
theorem claim_C8_unpublish_contract
    (pageId accessToken envPageId envToken : Option String) (resp : DeleteHttp) :
    (deleteFacebookPost pageId accessToken envPageId envToken resp = true ↔
      ((pageId.orElse (fun _ => envPageId)).isSome = true ∧
       (accessToken.orElse (fun _ => envToken)).isSome = true ∧ resp = .okTrue)) ∧
    (resp = .notFound →
      deleteFacebookPost pageId accessToken envPageId envToken resp = false) ∧
    (resp = .okFalse →
      deleteFacebookPost pageId accessToken envPageId envToken resp = false) ∧
    (resp = .errorStatus →
      deleteFacebookPost pageId accessToken envPageId envToken resp = false) ∧
    (resp = .exn →
      deleteFacebookPost pageId accessToken envPageId envToken resp = false) ∧
    (∀ (o : Oracle) (db : DB) (eff : Eff) (post : Post) (ptf : Option Bool)
        (user : Option User) (now : Nat),
      statusStep o db eff post .published (some .archived) ptf user now =
        .ok ({ post with status := .archived, publishedAt := none },
             (deleteFromFacebook o db eff post.id user).1,
             (deleteFromFacebook o db eff post.id user).2.1)) := by
  refine ⟨?_, ?_, ?_, ?_, ?_, ?_⟩
  · cases hpg : pageId.orElse (fun _ => envPageId) <;>
      cases hat : accessToken.orElse (fun _ => envToken) <;>
      cases resp <;> simp [deleteFacebookPost, hpg, hat]
  · rintro rfl
    cases hpg : pageId.orElse (fun _ => envPageId) <;>
      cases hat : accessToken.orElse (fun _ => envToken) <;>
      simp [deleteFacebookPost, hpg, hat]
  · rintro rfl
    cases hpg : pageId.orElse (fun _ => envPageId) <;>
      cases hat : accessToken.orElse (fun _ => envToken) <;>
      simp [deleteFacebookPost, hpg, hat]
  · rintro rfl
    cases hpg : pageId.orElse (fun _ => envPageId) <;>
      cases hat : accessToken.orElse (fun _ => envToken) <;>
      simp [deleteFacebookPost, hpg, hat]
  · rintro rfl
    cases hpg : pageId.orElse (fun _ => envPageId) <;>
      cases hat : accessToken.orElse (fun _ => envToken) <;>
      simp [deleteFacebookPost, hpg, hat]
  · intro o db eff post ptf user now
    simp [statusStep]

/-- Witness for C8: concrete evaluation on a not-found response with
credentials present. -/
theorem claim_C8_unpublish_contract_witness :
    deleteFacebookPost (some "page-1") (some "token-1") none none .notFound = false :=
  (claim_C8_unpublish_contract (some "page-1") (some "token-1") none none .notFound).2.1 rfl

/-- C10: `check_facebook_permissions` is total and fail-open: with a token
present, an exception anywhere during the check, a non-200 from the
permissions endpoint, or an empty permissions array all yield a result
with `valid = true` and no missing permissions, so the video upload's
permission gate lets the upload proceed; and with real permission data
the verdict is exactly the emptiness of the missing list. -/
theorem claim_C10_permission_check_fail_open
    (accessToken envToken : Option String) (world : PermApiWorld)
    (htok : (accessToken.orElse (fun _ => envToken)).isSome = true) :
    ((world = .exn ∨ world = .permNon200 ∨ world = .permOk []) →
      (checkFacebookPermissions accessToken envToken world).valid = true ∧
      (checkFacebookPermissions accessToken envToken world).missingPermissions = [] ∧
      videoPermissionGate (checkFacebookPermissions accessToken envToken world) = .ok ()) ∧
    (∀ data, (checkFacebookPermissions accessToken envToken (.permOk data)).valid =
      (checkFacebookPermissions accessToken envToken (.permOk data)).missingPermissions.isEmpty) := by
  obtain ⟨t, ht⟩ := Option.isSome_iff_exists.mp htok
  constructor
  · rintro (rfl | rfl | rfl) <;>
      simp [checkFacebookPermissions, ht, videoPermissionGate]
  · intro data
    rcases data with _ | ⟨d, ds⟩ <;> simp [checkFacebookPermissions, ht]

/-- Witness for C10: concrete evaluation with a token and an unreachable
permissions endpoint. -/
theorem claim_C10_permission_check_fail_open_witness :
    (checkFacebookPermissions (some "token-1") none .permNon200).valid = true ∧
    (checkFacebookPermissions (some "token-1") none .permNon200).missingPermissions = [] ∧
    videoPermissionGate (checkFacebookPermissions (some "token-1") none .permNon200) = .ok () :=
  (claim_C10_permission_check_fail_open (some "token-1") none .permNon200 rfl).1
    (Or.inr (Or.inl rfl))

/-- C7 (code bug): when the stored credential is expired
(`get_valid_facebook_token` raises), `_publish_to_facebook` does build the
distinguished 400 `facebook_token_expired` error carrying the
`link_facebook` action — but raises it inside its own `try`, whose
`except Exception` handler swallows it and re-raises the opaque generic
500 `facebook_post_failed` error, so the caller never sees the
distinguished expired-credential signal. -/
theorem claim_C7_expired_token_error (o : Oracle) (db : DB) (eff : Eff) (post : Post)
    (assetPids : Option (List Nat)) (u : User) (m : String)
    (htok : o.token = .error m) :
    publishInner o db eff post assetPids (some u) =
      .error (.http { statusCode := 400, code := "facebook_token_expired",
                      message := m, action := some "link_facebook" }) ∧
    publishToFacebook o db eff post assetPids (some u) =
      .error { statusCode := 500, code := "facebook_post_failed",
               message := "Dang bai len Facebook that bai: " ++ m } := by
  constructor
  · simp [publishInner, htok]
  · simp [publishToFacebook, publishInner, htok, pyExnMessage]

/-- Witness for C7: the expired-credential oracle evaluated on the draft
database. -/
theorem claim_C7_expired_token_error_witness :
    publishInner oracleFail dbDraft {} postDraft none (some { id := 7 }) =
      .error (.http { statusCode := 400, code := "facebook_token_expired",
                      message := "Long-lived User Token da het han",
                      action := some "link_facebook" }) ∧
    publishToFacebook oracleFail dbDraft {} postDraft none (some { id := 7 }) =
      .error { statusCode := 500, code := "facebook_post_failed",
               message := "Dang bai len Facebook that bai: Long-lived User Token da het han" } :=
  claim_C7_expired_token_error oracleFail dbDraft {} postDraft none { id := 7 }
    "Long-lived User Token da het han" rfl

/-! ## C2 helper lemmas -/

theorem uploadPhotosGo_eq_filterMap (po : Nat → Option String) (l : List Asset) :
    ∀ n, uploadPhotosGo po n l =
      (l.enumFrom n).filterMap (fun ia => if ia.2.url.isSome then po ia.1 else none) := by
  induction l with
  | nil => intro n; rfl
  | cons a rest ih =>
    intro n
    rw [List.enumFrom_cons, List.filterMap_cons]
    cases hu : a.url with
    | none => simp [uploadPhotosGo, hu, ih]
    | some u =>
      cases hpo : po n with
      | none => simp [uploadPhotosGo, hu, hpo, ih]
      | some pid => simp [uploadPhotosGo, hu, hpo, ih]

theorem uploadPhotos_eq_filterMap (po : Nat → Option String) (images : List Asset) :
    uploadPhotos po images =
      ((images.take 10).enum).filterMap
        (fun ia => if ia.2.url.isSome then po ia.1 else none) := by
  unfold uploadPhotos
  rw [uploadPhotosGo_eq_filterMap po (images.take 10) 0, List.enum_eq_enumFrom]

theorem uploadPhotos_length_le (po : Nat → Option String) (images : List Asset) :
    (uploadPhotos po images).length ≤ 10 := by
  rw [uploadPhotos_eq_filterMap]
  calc (((images.take 10).enum).filterMap _).length
      ≤ ((images.take 10).enum).length := List.length_filterMap_le _ _
    _ = (images.take 10).length := by rw [List.enum_eq_enumFrom, List.enumFrom_length]
    _ ≤ 10 := List.length_take_le 10 images

theorem uploadPhotosGo_length_all (po : Nat → Option String)
    (hpo : ∀ i, (po i).isSome = true) (l : List Asset)
    (hall : ∀ a ∈ l, a.url.isSome = true) :
    ∀ n, (uploadPhotosGo po n l).length = l.length := by
  induction l with
  | nil => intro n; rfl
  | cons a rest ih =>
    intro n
    have hu := hall a (List.mem_cons_self a rest)
    obtain ⟨pid, hpid⟩ := Option.isSome_iff_exists.mp (hpo n)
    simp [uploadPhotosGo, Option.isNone_iff_eq_none, Option.isSome_iff_ne_none.mp hu, hpid,
      ih (fun b hb => hall b (List.mem_cons_of_mem a hb))]

/-- C2: publish media routing is by strict priority.  If any asset's mime
type starts with `video/` exactly the first such asset becomes a single
video post and all images are ignored; otherwise at most ten image assets
are uploaded in order and one feed post references exactly the uploaded
photo ids (a carousel for several, a plain image attachment for one);
with no uploaded photo the feed post is text-only. -/
theorem claim_C2_media_routing (po : Nat → Option String) (allAssets : List Asset) :
    (∀ v, allAssets.find? assetStartsVideo = some v →
      publishMediaRouting po allAssets = .video v.id ∧
      assetStartsVideo v = true ∧
      ∃ pre suf, allAssets = pre ++ v :: suf ∧ ∀ a ∈ pre, assetStartsVideo a = false) ∧
    ((∃ a ∈ allAssets, assetStartsVideo a = true) →
      (allAssets.find? assetStartsVideo).isSome = true) ∧
    (allAssets.find? assetStartsVideo = none →
      publishMediaRouting po allAssets =
        .feed (uploadPhotos po (allAssets.filter assetStartsImage))
          (if (uploadPhotos po (allAssets.filter assetStartsImage)).length > 1 then .carousel
           else if (uploadPhotos po (allAssets.filter assetStartsImage)).length = 1 then .singleImage
           else .textOnly) ∧
      uploadPhotos po (allAssets.filter assetStartsImage) =
        (((allAssets.filter assetStartsImage).take 10).enum).filterMap
          (fun ia => if ia.2.url.isSome then po ia.1 else none) ∧
      (uploadPhotos po (allAssets.filter assetStartsImage)).length ≤ 10 ∧
      (allAssets.filter assetStartsImage = [] →
        publishMediaRouting po allAssets = .feed [] .textOnly) ∧
      ((∀ i, (po i).isSome = true) →
        (∀ a ∈ allAssets.filter assetStartsImage, a.url.isSome = true) →
        (uploadPhotos po (allAssets.filter assetStartsImage)).length =
          min 10 (allAssets.filter assetStartsImage).length)) := by
  refine ⟨?_, ?_, ?_⟩
  · intro v hv
    refine ⟨by simp [publishMediaRouting, hv], List.find?_some hv, ?_⟩
    obtain ⟨-, pre, suf, heq, hpre⟩ := List.find?_eq_some.mp hv
    exact ⟨pre, suf, heq, fun a ha => by simpa using hpre a ha⟩
  · intro ⟨a, ha, hp⟩
    exact List.find?_isSome.mpr ⟨a, ha, hp⟩
  · intro hn
    have hroute : publishMediaRouting po allAssets =
        uploadImagesToFacebook po (allAssets.filter assetStartsImage) := by
      simp only [publishMediaRouting, hn]
      by_cases he : (allAssets.filter assetStartsImage).isEmpty
      · rw [if_pos he, List.isEmpty_iff.mp he]
      · rw [if_neg he]
    refine ⟨?_, uploadPhotos_eq_filterMap po _, uploadPhotos_length_le po _, ?_, ?_⟩
    · rw [hroute]
      rfl
    · intro hemp
      rw [hroute, hemp]
      rfl
    · intro hpo hall
      unfold uploadPhotos
      rw [uploadPhotosGo_length_all po hpo ((allAssets.filter assetStartsImage).take 10)
        (fun a ha => hall a ((List.take_sublist 10 _).subset ha)) 0]
      exact List.length_take 10 _

/-- Witness for C2: concrete evaluations of the routing branches — the
video-first branch on a mixed list, and the feed branch on a two-image
list. -/
theorem claim_C2_media_routing_witness :
    publishMediaRouting (fun i => some (toString i)) [assetImg, assetVid, assetImg] =
      .video assetVid.id ∧
    publishMediaRouting (fun i => some (toString i)) [assetImg, assetImg] =
      .feed (uploadPhotos (fun i => some (toString i))
          ([assetImg, assetImg].filter assetStartsImage))
        (if (uploadPhotos (fun i => some (toString i))
              ([assetImg, assetImg].filter assetStartsImage)).length > 1
         then .carousel
         else if (uploadPhotos (fun i => some (toString i))
              ([assetImg, assetImg].filter assetStartsImage)).length = 1
         then .singleImage else .textOnly) :=
  ⟨((claim_C2_media_routing (fun i => some (toString i))
      [assetImg, assetVid, assetImg]).1 assetVid (by decide)).1,
   ((claim_C2_media_routing (fun i => some (toString i))
      [assetImg, assetImg]).2.2 (by decide)).1⟩

/-! ## C9 helper lemmas -/

theorem mem_missing_iff (assets : List Asset) (pids : List Nat) (q : Nat) :
    (q ∈ pids.filter (fun pid =>
        !((assets.filter (nonDeletedMatch pids)).any (fun a => a.publicId == pid)))) ↔
      (q ∈ pids ∧ ∀ a ∈ assets, ¬(a.publicId = q ∧ a.deletedAt = none)) := by
  rw [List.mem_filter]
  constructor
  · rintro ⟨hq, hb⟩
    refine ⟨hq, ?_⟩
    rintro a ha ⟨hap, had⟩
    simp only [Bool.not_eq_true', List.any_eq_false] at hb
    have hmem : a ∈ assets.filter (nonDeletedMatch pids) := by
      rw [List.mem_filter]
      refine ⟨ha, ?_⟩
      simp only [nonDeletedMatch, Bool.and_eq_true, beq_iff_eq]
      exact ⟨by rw [hap]; exact List.elem_eq_true_of_mem hq, had⟩
    have hcontra := hb a hmem
    simp [hap] at hcontra
  · rintro ⟨hq, hbad⟩
    refine ⟨hq, ?_⟩
    simp only [Bool.not_eq_true', List.any_eq_false]
    intro a ha
    rw [List.mem_filter] at ha
    intro hbeq
    have hap : a.publicId = q := by simpa using hbeq
    have had : a.deletedAt = none := by
      have h2 := ha.2
      simp only [nonDeletedMatch, Bool.and_eq_true, beq_iff_eq] at h2
      exact h2.2
    exact hbad a ha.1 ⟨hap, had⟩

/-- C9: asset-reference resolution is all-or-nothing.  If every requested
public id resolves to a non-deleted stored asset the result maps the ids
in caller order to the matching rows; otherwise the call fails with the
400 `invalid_asset` error whose listed ids are exactly the unresolvable
requested ids, and a create that hits this error commits nothing (no
`PostAsset` row is produced). -/
theorem claim_C9_asset_resolution (assets : List Asset) (pids : List Nat) :
    ((∀ pid ∈ pids, ∃ a ∈ assets, a.publicId = pid ∧ a.deletedAt = none) →
      ∃ l, resolveAssetIds assets (some pids) = .ok l ∧ l.length = pids.length ∧
        ∀ i, ∀ h : i < pids.length,
          ∃ a ∈ assets, a.deletedAt = none ∧ a.publicId = pids.get ⟨i, h⟩ ∧
            l.getD i 0 = a.id) ∧
    ((∃ pid ∈ pids, ∀ a ∈ assets, ¬(a.publicId = pid ∧ a.deletedAt = none)) →
      ∃ e, resolveAssetIds assets (some pids) = .error e ∧ e.statusCode = 400 ∧
        e.code = "invalid_asset" ∧
        (∀ q, q ∈ e.detail ↔
          q ∈ pids ∧ ∀ a ∈ assets, ¬(a.publicId = q ∧ a.deletedAt = none))) ∧
    (∀ (te : TextEnv) (o : Oracle) (db : DB) (payload : NewsCreatePayload)
        (user : Option User) (now newId : Nat) (e : HErr),
      db.assets = assets →
      payload.contentAssetPublicIds = some pids →
      createSlug te payload ≠ "" →
      slugConflict db (createSlug te payload) none = false →
      resolveAssetIds assets (some pids) = .error e →
      createNews te o db payload user now newId = .error e ∧
      committedAfterCreate te o db payload user now newId = db) := by
  refine ⟨?_, ?_, ?_⟩
  · intro hall
    by_cases hp : pids.isEmpty
    · rw [List.isEmpty_iff.mp hp]
      exact ⟨[], by simp [resolveAssetIds], rfl, fun i h => by simp at h⟩
    · have hmiss : (pids.filter (fun pid =>
          !((assets.filter (nonDeletedMatch pids)).any
            (fun a => a.publicId == pid)))).isEmpty = true := by
        rw [List.isEmpty_iff, List.filter_eq_nil_iff]
        intro pid hpid
        obtain ⟨a, ha, hapid, hadel⟩ := hall pid hpid
        simp only [Bool.not_eq_true', Bool.not_eq_false, List.any_eq_true]
        refine ⟨a, ?_, by simp [hapid]⟩
        rw [List.mem_filter]
        refine ⟨ha, ?_⟩
        simp only [nonDeletedMatch, Bool.and_eq_true, beq_iff_eq]
        exact ⟨by rw [hapid]; exact List.elem_eq_true_of_mem hpid, hadel⟩
      refine ⟨pids.map (fun pid =>
          (((assets.filter (nonDeletedMatch pids)).reverse.find?
            (fun a => a.publicId == pid)).map (fun a => a.id)).getD 0), ?_, by simp, ?_⟩
      · simp only [resolveAssetIds]
        rw [if_neg (by simpa using hp), if_pos hmiss]
      · intro i h
        have hpidmem : pids.get ⟨i, h⟩ ∈ pids := List.get_mem pids i h
        obtain ⟨a, ha, hapid, hadel⟩ := hall _ hpidmem
        have hfound : a ∈ (assets.filter (nonDeletedMatch pids)).reverse := by
          rw [List.mem_reverse, List.mem_filter]
          refine ⟨ha, ?_⟩
          simp only [nonDeletedMatch, Bool.and_eq_true, beq_iff_eq]
          exact ⟨by rw [hapid]; exact List.elem_eq_true_of_mem hpidmem, hadel⟩
        have hsome : ((assets.filter (nonDeletedMatch pids)).reverse.find?
            (fun b => b.publicId == pids.get ⟨i, h⟩)).isSome = true :=
          List.find?_isSome.mpr ⟨a, hfound, by simp [hapid]⟩
        obtain ⟨a0, ha0⟩ := Option.isSome_iff_exists.mp hsome
        have ha0p : a0.publicId = pids.get ⟨i, h⟩ := by
          have := List.find?_some ha0
          simpa using this
        have ha0mem : a0 ∈ assets.filter (nonDeletedMatch pids) :=
          List.mem_reverse.mp (List.mem_of_find?_eq_some ha0)
        rw [List.mem_filter] at ha0mem
        have ha0del : a0.deletedAt = none := by
          have h2 := ha0mem.2
          simp only [nonDeletedMatch, Bool.and_eq_true, beq_iff_eq] at h2
          exact h2.2
        refine ⟨a0, ha0mem.1, ha0del, ha0p, ?_⟩
        have hlt : i < (pids.map (fun pid =>
            (((assets.filter (nonDeletedMatch pids)).reverse.find?
              (fun a => a.publicId == pid)).map (fun a => a.id)).getD 0)).length := by
          simpa using h
        rw [List.getD_eq_getElem _ 0 hlt, List.getElem_map]
        have hget : pids[i] = pids.get ⟨i, h⟩ := rfl
        rw [hget, ha0]
        rfl
  · rintro ⟨pid, hpid, hbad⟩
    have hp : pids.isEmpty = false := by
      cases pids with
      | nil => simp at hpid
      | cons x xs => rfl
    have hmem : pid ∈ pids.filter (fun q =>
        !((assets.filter (nonDeletedMatch pids)).any (fun a => a.publicId == q))) :=
      (mem_missing_iff assets pids pid).mpr ⟨hpid, hbad⟩
    have hmiss : (pids.filter (fun q =>
        !((assets.filter (nonDeletedMatch pids)).any
          (fun a => a.publicId == q)))).isEmpty = false := by
      rcases hfilter : pids.filter (fun q =>
          !((assets.filter (nonDeletedMatch pids)).any (fun a => a.publicId == q))) with
        _ | ⟨x, xs⟩
      · rw [hfilter] at hmem
        simp at hmem
      · rfl
    refine ⟨{ statusCode := 400, code := "invalid_asset",
              message := "Asset khong ton tai hoac da bi xoa",
              detail := pids.filter (fun q =>
                !((assets.filter (nonDeletedMatch pids)).any
                  (fun a => a.publicId == q))) }, ?_, rfl, rfl, ?_⟩
    · simp only [resolveAssetIds]
      rw [if_neg (by rw [hp]; simp), if_neg (by rw [hmiss]; simp)]
    · intro q
      exact mem_missing_iff assets pids q
  · intro te o db payload user now newId e hassets hm hs hc herr
    by_cases hp : pids.isEmpty
    · exfalso
      rw [List.isEmpty_iff.mp hp] at herr
      simp [resolveAssetIds] at herr
    · have hcreate : createNews te o db payload user now newId = .error e := by
        have hc2 : ¬ (slugConflict db (createSlug te payload) none = true) := by simp [hc]
        simp only [createNews, hm]
        rw [if_neg hs, if_neg hc2, if_neg (by simpa using hp)]
        simp [hassets, herr]
      exact ⟨hcreate, by unfold committedAfterCreate; rw [hcreate]⟩

/-! ## Stage lemmas for the orchestrator -/

theorem applyTitle_none (te : TextEnv) (db : DB) (post : Post) :
    applyTitle te db post none = .ok post := rfl

theorem applyTitle_some_ok (te : TextEnv) (db : DB) (post : Post) (t : String)
    (hs : slugifyStr te t ≠ "")
    (hc : slugConflict db (slugifyStr te t) (some post.id) = false) :
    applyTitle te db post (some t) =
      .ok { post with title := t, slug := slugifyStr te t } := by
  simp only [applyTitle]
  rw [if_neg hs, if_neg (by simp [hc])]

theorem applyMedia_none (db : DB) (postId : Nat) :
    applyMedia db postId none = .ok (db, false) := rfl

theorem applyMedia_some_ok (db : DB) (postId : Nat) (pids : List Nat) (l : List Nat)
    (hne : pids.isEmpty = false)
    (hres : resolveAssetIds db.assets (some pids) = .ok l) :
    applyMedia db postId (some pids) =
      .ok ({ db with postAssets :=
        db.postAssets.filter (fun pa => pa.postId != postId) ++ postAssetRows postId l },
        true) := by
  simp only [applyMedia]
  rw [if_neg (by rw [hne]; simp)]
  simp [hres]

theorem applyMedia_some_empty (db : DB) (postId : Nat) (pids : List Nat)
    (hemp : pids.isEmpty = true) :
    applyMedia db postId (some pids) =
      .ok ({ db with postAssets :=
        db.postAssets.filter (fun pa => pa.postId != postId) }, true) := by
  simp only [applyMedia]
  rw [if_pos hemp]

theorem statusStep_none (o : Oracle) (db : DB) (eff : Eff) (post : Post)
    (prev : ContentStatus) (ptf : Option Bool) (user : Option User) (now : Nat) :
    statusStep o db eff post prev none ptf user now = .ok (post, db, eff) := rfl

theorem publishToFacebook_fail (o : Oracle) (db : DB) (eff : Eff) (post : Post)
    (pids : Option (List Nat)) (u : User)
    (hup : eff.uploadCount = 0)
    (hfail : (∃ m, o.token = .error m) ∨ (∃ m, o.upload 0 = .error m)) :
    ∃ e, publishToFacebook o db eff post pids (some u) = .error e ∧
      e.statusCode = 500 ∧ e.code = "facebook_post_failed" := by
  cases htok : o.token with
  | error m =>
    exact ⟨{ statusCode := 500, code := "facebook_post_failed",
             message := "Dang bai len Facebook that bai: " ++ m },
           by simp [publishToFacebook, publishInner, htok, pyExnMessage], rfl, rfl⟩
  | ok pt =>
    rcases hfail with ⟨m, hm⟩ | ⟨m, hm⟩
    · rw [htok] at hm
      cases hm
    · exact ⟨{ statusCode := 500, code := "facebook_post_failed",
               message := "Dang bai len Facebook that bai: " ++ m },
             by simp [publishToFacebook, publishInner, htok, hup, hm, pyExnMessage], rfl, rfl⟩

theorem statusStep_to_published_sync_fail (o : Oracle) (db : DB) (eff : Eff)
    (post : Post) (prev : ContentStatus) (ptf : Option Bool) (user : Option User)
    (now : Nat) (e : HErr)
    (hprev : prev ≠ .published) (hptf2 : ptf = none ∨ ptf = some true)
    (hpub : publishToFacebook o db eff
      { { post with status := .published } with publishedAt := some now }
      (getPostContentAssetPublicIds db
        ({ { post with status := .published } with publishedAt := some now }).id) user =
      .error e) :
    statusStep o db eff post prev (some .published) ptf user now = .error e := by
  simp only [statusStep]
  rw [if_pos ⟨hprev, trivial⟩, if_pos hptf2, hpub]

theorem ptf_not_false_cases (ptf : Option Bool) (h : ptf ≠ some false) :
    ptf = none ∨ ptf = some true := by
  cases ptf with
  | none => exact Or.inl rfl
  | some b =>
    cases b with
    | false => exact absurd rfl h
    | true => exact Or.inr rfl

theorem createNews_fail_of_shape (te : TextEnv) (o : Oracle) (db : DB)
    (payload : NewsCreatePayload) (u : User) (now newId : Nat)
    (hfail : (∃ m, o.token = .error m) ∨ (∃ m, o.upload 0 = .error m))
    (hshape : ∃ dbx postx pidsx,
      createNews te o db payload (some u) now newId =
        publishToFacebook o dbx {} postx pidsx (some u)) :
    ∃ e, createNews te o db payload (some u) now newId = .error e ∧
      e.statusCode = 500 ∧ e.code = "facebook_post_failed" ∧
      committedAfterCreate te o db payload (some u) now newId = db := by
  obtain ⟨dbx, postx, pidsx, hshape⟩ := hshape
  obtain ⟨e, he, h500, hcode⟩ := publishToFacebook_fail o dbx {} postx pidsx u rfl hfail
  have hcr : createNews te o db payload (some u) now newId = .error e := by
    rw [hshape, he]
  exact ⟨e, hcr, h500, hcode, by unfold committedAfterCreate; rw [hcr]⟩

theorem updateNews_statusFail (te : TextEnv) (o : Oracle) (db : DB) (newsId : Nat)
    (payload : NewsUpdatePayload) (u : User) (now : Nat) (post post1 : Post)
    (db1 : DB) (b : Bool) (e : HErr)
    (hpost : getNewsOr404 db newsId = .ok post)
    (htit : applyTitle te db post payload.title = .ok post1)
    (hmed : applyMedia db (applySimpleFields post1 payload).id
      payload.contentAssetPublicIds = .ok (db1, b))
    (hstat : statusStep o db1 {} (applySimpleFields post1 payload) post.status
      payload.status payload.publishToFacebook (some u) now = .error e) :
    updateNews te o db newsId payload (some u) now = .error e := by
  unfold updateNews
  simp only [hpost, htit, hmed, hstat]

/-- C1: a transition of a content item into published with Facebook sync
requested — a create with initial status published, or a status update —
whose Facebook publish step fails (token refresh error or upload error)
makes the whole operation fail with the 500 `facebook_post_failed` error,
and the committed database is exactly the prior one: the item keeps its
prior status and no `FacebookPostLog` row is created.  The hypotheses on
slug, uniqueness and asset resolution say only that the operation reaches
the publish step instead of failing earlier with a 4xx validation
error. -/
theorem claim_C1_publish_failure_rollback (te : TextEnv) (o : Oracle) (db : DB)
    (u : User) (now : Nat)
    (hfail : (∃ m, o.token = .error m) ∨ (∃ m, o.upload 0 = .error m)) :
    (∀ (payload : NewsCreatePayload) (newId : Nat),
      payload.status = .published →
      payload.publishToFacebook = true →
      createSlug te payload ≠ "" →
      slugConflict db (createSlug te payload) none = false →
      (∀ pids, payload.contentAssetPublicIds = some pids →
        ∃ l, resolveAssetIds db.assets (some pids) = .ok l) →
      ∃ e, createNews te o db payload (some u) now newId = .error e ∧
        e.statusCode = 500 ∧ e.code = "facebook_post_failed" ∧
        committedAfterCreate te o db payload (some u) now newId = db) ∧
    (∀ (newsId : Nat) (payload : NewsUpdatePayload) (post : Post),
      getNewsOr404 db newsId = .ok post →
      post.status ≠ .published →
      payload.status = some .published →
      payload.publishToFacebook ≠ some false →
      (∀ t, payload.title = some t → slugifyStr te t ≠ "" ∧
        slugConflict db (slugifyStr te t) (some post.id) = false) →
      (∀ pids, payload.contentAssetPublicIds = some pids →
        ∃ l, resolveAssetIds db.assets (some pids) = .ok l) →
      ∃ e, updateNews te o db newsId payload (some u) now = .error e ∧
        e.statusCode = 500 ∧ e.code = "facebook_post_failed" ∧
        committedAfterUpdate te o db newsId payload (some u) now = db) := by
  constructor
  · intro payload newId hst hptf hs hc hres
    apply createNews_fail_of_shape te o db payload u now newId hfail
    cases hm : payload.contentAssetPublicIds with
    | none =>
      refine ⟨?_, ?_, ?_, ?_⟩
      rotate_left 3
      · unfold createNews
        simp only [hm, hst, hptf]
        rw [if_neg hs, if_neg (by simp [hc])]
        simp only [and_self, if_true]
        exact Eq.refl _
    | some pids =>
      by_cases hemp : pids.isEmpty
      · refine ⟨?_, ?_, ?_, ?_⟩
        rotate_left 3
        · unfold createNews
          simp only [hm, hst, hptf]
          rw [if_neg hs, if_neg (by simp [hc]), if_pos hemp]
          simp only [and_self, if_true]
          exact Eq.refl _
      · obtain ⟨l, hl⟩ := hres pids hm
        refine ⟨?_, ?_, ?_, ?_⟩
        rotate_left 3
        · unfold createNews
          simp only [hm, hst, hptf]
          rw [if_neg hs, if_neg (by simp [hc]), if_neg hemp]
          simp only [hl, and_self, if_true]
          exact Eq.refl _
  · intro newsId payload post hpost hprev hst hptf htitle hres
    have htit : ∃ post1, applyTitle te db post payload.title = .ok post1 := by
      cases ht : payload.title with
      | none => exact ⟨post, rfl⟩
      | some t =>
        obtain ⟨hs1, hc1⟩ := htitle t ht
        exact ⟨_, applyTitle_some_ok te db post t hs1 hc1⟩
    obtain ⟨post1, htit⟩ := htit
    have hmed : ∃ db1 b, applyMedia db (applySimpleFields post1 payload).id
        payload.contentAssetPublicIds = .ok (db1, b) := by
      cases hm : payload.contentAssetPublicIds with
      | none => exact ⟨db, false, rfl⟩
      | some pids =>
        by_cases hemp : pids.isEmpty
        · exact ⟨_, _, applyMedia_some_empty _ _ _ hemp⟩
        · obtain ⟨l, hl⟩ := hres pids hm
          exact ⟨_, _, applyMedia_some_ok _ _ pids l (by simpa using hemp) hl⟩
    obtain ⟨db1, b, hmed⟩ := hmed
    obtain ⟨e, he, h500, hcode⟩ := publishToFacebook_fail o db1 {}
      { { applySimpleFields post1 payload with status := .published } with
        publishedAt := some now }
      (getPostContentAssetPublicIds db1
        ({ { applySimpleFields post1 payload with status := .published } with
          publishedAt := some now }).id)
      u rfl hfail
    have hstat : statusStep o db1 {} (applySimpleFields post1 payload) post.status
        payload.status payload.publishToFacebook (some u) now = .error e := by
      rw [hst]
      exact statusStep_to_published_sync_fail o db1 {} (applySimpleFields post1 payload)
        post.status payload.publishToFacebook (some u) now e hprev
        (ptf_not_false_cases _ hptf) he
    have hupd := updateNews_statusFail te o db newsId payload u now post post1 db1 b e
      hpost htit hmed hstat
    exact ⟨e, hupd, h500, hcode, by unfold committedAfterUpdate; rw [hupd]⟩

/-! ## C5 helper lemmas -/

theorem applySimpleFields_spec (post : Post) (payload : NewsUpdatePayload) :
    (applySimpleFields post payload).id = post.id ∧
    (applySimpleFields post payload).status = post.status ∧
    (applySimpleFields post payload).title = post.title ∧
    (applySimpleFields post payload).slug = post.slug ∧
    (applySimpleFields post payload).publishedAt = post.publishedAt := by
  cases payload with
  | mk title slug excerpt contentHtml status metaTitle metaDescription cap ptf =>
    cases excerpt <;> cases contentHtml <;> cases metaTitle <;> cases metaDescription <;>
      exact ⟨rfl, rfl, rfl, rfl, rfl⟩

theorem find?_updateFirstLog_set (pid : Nat) (fbId : String) (st : JobStatus) :
    ∀ (logs : List FacebookPostLog), logs.any (fun l => l.postId == pid) = true →
    ∃ l0, (updateFirstLog (fun l => { l with fbPostId := some fbId, status := st }) pid
        logs).find? (fun l => l.postId == pid && l.fbPostId.isSome) = some l0 ∧
      l0.fbPostId = some fbId := by
  intro logs
  induction logs with
  | nil => intro h; simp at h
  | cons l ls ih =>
    intro h
    by_cases hl : (l.postId == pid) = true
    · refine ⟨{ l with fbPostId := some fbId, status := st }, ?_, rfl⟩
      simp [updateFirstLog, hl]
    · have h2 : ls.any (fun l => l.postId == pid) = true := by
        simp only [List.any_cons, hl, Bool.false_or] at h
        exact h
      obtain ⟨l0, hf, hfb⟩ := ih h2
      refine ⟨l0, ?_, hfb⟩
      unfold updateFirstLog
      rw [if_neg (by simp [hl])]
      rw [List.find?_cons_of_neg _ (by simp [hl]), hf]

theorem getFacebookPostId_save (db : DB) (pid : Nat) (fbId : String) (st : JobStatus) :
    getFacebookPostId (saveFacebookPostLog db pid fbId st) pid = some fbId := by
  unfold saveFacebookPostLog getFacebookPostId
  by_cases hany : db.fbLogs.any (fun l => l.postId == pid) = true
  · rw [if_pos hany]
    obtain ⟨l0, hf, hfb⟩ := find?_updateFirstLog_set pid fbId st db.fbLogs hany
    rw [hf]
    simp [hfb]
  · rw [if_neg hany]
    have hleft : db.fbLogs.find? (fun l => l.postId == pid && l.fbPostId.isSome) = none := by
      rw [List.find?_eq_none]
      intro x hx
      have hxp : (x.postId == pid) = false := by
        by_contra hb
        simp only [Bool.not_eq_false] at hb
        exact hany (List.any_eq_true.mpr ⟨x, hx, hb⟩)
      simp [hxp]
    simp [List.find?_append, hleft]

theorem getFacebookPostId_mergePost (db : DB) (post : Post) (pid : Nat) :
    getFacebookPostId (mergePost db post) pid = getFacebookPostId db pid := rfl

theorem getFacebookPostId_appendRevision (db : DB) (post : Post) (pid : Nat) :
    getFacebookPostId (appendRevision db post) pid = getFacebookPostId db pid := rfl

/-- C5: editing the body of an already-published, already-synced item with
sync enabled performs exactly one unpublish of the recorded old remote
post followed by exactly one publish, and the stored `FacebookPostLog`
remote id afterwards is the id returned by the new publish call — not the
old one.  The delete outcome is quantified over: a failed remote delete
does not change the calls made or the recorded new id. -/
theorem claim_C5_edit_republish (te : TextEnv) (o : Oracle) (db : DB) (newsId : Nat)
    (payload : NewsUpdatePayload) (u : User) (now : Nat) (post : Post)
    (oldId newId : String) (pid tok : String)
    (hpost : getNewsOr404 db newsId = .ok post)
    (hpub : post.status = .published)
    (htitle : payload.title = none)
    (hbody : ∃ body, payload.contentHtml = some body)
    (hstatus : payload.status = none)
    (hmedia : payload.contentAssetPublicIds = none)
    (hptf : payload.publishToFacebook ≠ some false)
    (hlog : getFacebookPostId db post.id = some oldId)
    (htok : o.token = .ok (pid, tok))
    (hup : o.upload 0 = .ok (some newId)) :
    ∃ db1 eff, updateNews te o db newsId payload (some u) now = .ok (db1, eff) ∧
      eff.calls = [FbCall.unpublish oldId, FbCall.publish] ∧
      getFacebookPostId db1 post.id = some newId := by
  have hid : (applySimpleFields post payload).id = post.id :=
    (applySimpleFields_spec post payload).1
  have hstat2 : (applySimpleFields post payload).status = post.status :=
    (applySimpleFields_spec post payload).2.1
  obtain ⟨body, hb⟩ := hbody
  have hcc : hasContentChanges payload = true := by simp [hasContentChanges, hb]
  refine ⟨?_, ?_, ?_, ?_, ?_⟩
  rotate_left 2
  · unfold updateNews
    simp only [hpost, htitle, applyTitle_none, hmedia, applyMedia_none, hstatus,
      statusStep_none]
    unfold contentSyncStep
    rw [if_pos ⟨by rw [hstat2, hpub], hpub, hcc⟩]
    rw [if_neg hptf]
    rw [hid]
    simp only [deleteFromFacebook, hlog, htok]
    rw [if_pos hptf]
    simp only [publishToFacebook, publishInner, htok, hup]
    exact Eq.refl _
  · exact Eq.refl _
  · rw [getFacebookPostId_appendRevision, getFacebookPostId_mergePost, hid]
    exact getFacebookPostId_save _ post.id newId .succeeded

/-- Witness for C5: the healthy oracle on the published, synced database;
the new remote id `fb-new` replaces `fb-old` after one unpublish and one
publish. -/
theorem claim_C5_edit_republish_witness :
    ∃ db1 eff, updateNews asciiTextEnv oracleOk dbPub 1
        { contentHtml := some "noi dung moi" } (some { id := 7 }) 9 = .ok (db1, eff) ∧
      eff.calls = [FbCall.unpublish "fb-old", FbCall.publish] ∧
      getFacebookPostId db1 postPub.id = some "fb-new" :=
  claim_C5_edit_republish asciiTextEnv oracleOk dbPub 1
    { contentHtml := some "noi dung moi" } { id := 7 } 9 postPub "fb-old" "fb-new"
    "page-1" "token-1" rfl rfl rfl ⟨"noi dung moi", rfl⟩ rfl rfl (by decide) rfl rfl rfl

/-- Witness for C1: the failing oracle on the draft database; the
transition attempt fails with the generic 500 and commits nothing. -/
theorem claim_C1_publish_failure_rollback_witness :
    ∃ e, updateNews asciiTextEnv oracleFail dbDraft 2
        { status := some .published } (some { id := 7 }) 9 = .error e ∧
      e.statusCode = 500 ∧ e.code = "facebook_post_failed" ∧
      committedAfterUpdate asciiTextEnv oracleFail dbDraft 2
        { status := some .published } (some { id := 7 }) 9 = dbDraft :=
  (claim_C1_publish_failure_rollback asciiTextEnv oracleFail dbDraft { id := 7 } 9
    (Or.inl ⟨"Long-lived User Token da het han", rfl⟩)).2 2
    { status := some .published } postDraft rfl (by decide) rfl (by decide)
    (fun t h => nomatch h) (fun pids h => nomatch h)

/-! ## Inversion lemmas for C3 -/

theorem saveFacebookPostLog_fields (db : DB) (pid : Nat) (fbId : String)
    (st : JobStatus) :
    (saveFacebookPostLog db pid fbId st).posts = db.posts ∧
    (saveFacebookPostLog db pid fbId st).postAssets = db.postAssets ∧
    (saveFacebookPostLog db pid fbId st).assets = db.assets ∧
    (saveFacebookPostLog db pid fbId st).revisions = db.revisions := by
  unfold saveFacebookPostLog
  split <;> exact ⟨rfl, rfl, rfl, rfl⟩

theorem deleteFromFacebook_fields (o : Oracle) (db : DB) (eff : Eff) (pid : Nat)
    (user : Option User) :
    (deleteFromFacebook o db eff pid user).1.posts = db.posts ∧
    (deleteFromFacebook o db eff pid user).1.postAssets = db.postAssets ∧
    (deleteFromFacebook o db eff pid user).1.assets = db.assets ∧
    (deleteFromFacebook o db eff pid user).1.revisions = db.revisions := by
  unfold deleteFromFacebook
  cases getFacebookPostId db pid with
  | none => exact ⟨rfl, rfl, rfl, rfl⟩
  | some fbId =>
    simp only []
    split <;> exact ⟨rfl, rfl, rfl, rfl⟩

theorem publishToFacebook_ok_inv (o : Oracle) (db : DB) (eff : Eff) (post : Post)
    (pids : Option (List Nat)) (user : Option User) (db1 : DB) (eff1 : Eff)
    (h : publishToFacebook o db eff post pids user = .ok (db1, eff1)) :
    db1.posts = db.posts ∧ db1.postAssets = db.postAssets ∧
    db1.assets = db.assets ∧ db1.revisions = db.revisions := by
  unfold publishToFacebook publishInner at h
  cases user with
  | none =>
    simp only [] at h
    injection h with h
    injection h with h1 h2
    subst h1
    exact ⟨rfl, rfl, rfl, rfl⟩
  | some u =>
    cases htok : o.token with
    | error m => rw [htok] at h; simp at h
    | ok pt =>
      rw [htok] at h
      simp only [] at h
      cases hup : o.upload eff.uploadCount with
      | error m => rw [hup] at h; simp at h
      | ok fbIdOpt =>
        rw [hup] at h
        cases fbIdOpt with
        | none =>
          simp only [] at h
          injection h with h
          injection h with h1 h2
          subst h1
          exact ⟨rfl, rfl, rfl, rfl⟩
        | some fbId =>
          simp only [] at h
          injection h with h
          injection h with h1 h2
          subst h1
          exact saveFacebookPostLog_fields db post.id fbId .succeeded

theorem applyTitle_ok_inv (te : TextEnv) (db : DB) (post : Post)
    (titleOpt : Option String) (post1 : Post)
    (h : applyTitle te db post titleOpt = .ok post1) :
    post1.id = post.id ∧ post1.status = post.status ∧
    post1.publishedAt = post.publishedAt ∧ post1.excerpt = post.excerpt ∧
    post1.contentHtml = post.contentHtml ∧ post1.metaTitle = post.metaTitle ∧
    post1.metaDescription = post.metaDescription ∧
    (titleOpt = none → post1 = post) ∧
    (∀ t, titleOpt = some t → post1.title = t ∧ post1.slug = slugifyStr te t) := by
  cases titleOpt with
  | none =>
    injection h with h
    subst h
    exact ⟨rfl, rfl, rfl, rfl, rfl, rfl, rfl, fun _ => rfl, fun t ht => nomatch ht⟩
  | some t =>
    simp only [applyTitle] at h
    by_cases hs : slugifyStr te t = ""
    · rw [if_pos hs] at h
      exact absurd h (by simp)
    · rw [if_neg hs] at h
      by_cases hc : slugConflict db (slugifyStr te t) (some post.id) = true
      · rw [if_pos hc] at h
        exact absurd h (by simp)
      · rw [if_neg hc] at h
        injection h with h
        subst h
        refine ⟨rfl, rfl, rfl, rfl, rfl, rfl, rfl, ?_, ?_⟩
        · intro hn
          exact nomatch hn
        · intro t2 ht2
          injection ht2 with ht2
          subst ht2
          exact ⟨rfl, rfl⟩

theorem applySimpleFields_fields (post : Post) (payload : NewsUpdatePayload) :
    ((payload.excerpt = none →
        (applySimpleFields post payload).excerpt = post.excerpt) ∧
      (∀ v, payload.excerpt = some v →
        (applySimpleFields post payload).excerpt = some v)) ∧
    ((payload.contentHtml = none →
        (applySimpleFields post payload).contentHtml = post.contentHtml) ∧
      (∀ v, payload.contentHtml = some v →
        (applySimpleFields post payload).contentHtml = v)) ∧
    ((payload.metaTitle = none →
        (applySimpleFields post payload).metaTitle = post.metaTitle) ∧
      (∀ v, payload.metaTitle = some v →
        (applySimpleFields post payload).metaTitle = some v)) ∧
    ((payload.metaDescription = none →
        (applySimpleFields post payload).metaDescription = post.metaDescription) ∧
      (∀ v, payload.metaDescription = some v →
        (applySimpleFields post payload).metaDescription = some v)) := by
  cases payload with
  | mk title slug excerpt contentHtml status metaTitle metaDescription cap ptf =>
    cases excerpt <;> cases contentHtml <;> cases metaTitle <;> cases metaDescription <;>
      simp [applySimpleFields]

theorem resolveAssetIds_ok_length (assets : List Asset) (pids : List Nat)
    (l : List Nat) (h : resolveAssetIds assets (some pids) = .ok l) :
    l.length = pids.length := by
  simp only [resolveAssetIds] at h
  by_cases hp : pids.isEmpty
  · rw [if_pos hp] at h
    injection h with h
    rw [← h, List.isEmpty_iff.mp hp]
  · rw [if_neg hp] at h
    split at h
    · injection h with h
      rw [← h]
      exact List.length_map _ _
    · exact absurd h (by simp)

theorem applyMedia_ok_inv (db : DB) (postId : Nat) (pidsOpt : Option (List Nat))
    (db1 : DB) (b : Bool)
    (h : applyMedia db postId pidsOpt = .ok (db1, b)) :
    db1.posts = db.posts ∧ db1.assets = db.assets ∧
    db1.revisions = db.revisions ∧ db1.fbLogs = db.fbLogs ∧
    (pidsOpt = none → db1.postAssets = db.postAssets) ∧
    (∀ pids, pidsOpt = some pids →
      ∃ assetIds, resolveAssetIds db.assets (some pids) = .ok assetIds ∧
        assetIds.length = pids.length ∧
        db1.postAssets =
          db.postAssets.filter (fun pa => pa.postId != postId) ++
            postAssetRows postId assetIds) := by
  cases pidsOpt with
  | none =>
    injection h with h
    injection h with h1 h2
    subst h1
    exact ⟨rfl, rfl, rfl, rfl, fun _ => rfl, fun pids hp => nomatch hp⟩
  | some pids =>
    simp only [applyMedia] at h
    by_cases hp : pids.isEmpty
    · rw [if_pos hp] at h
      injection h with h
      injection h with h1 h2
      subst h1
      refine ⟨rfl, rfl, rfl, rfl, ?_, ?_⟩
      · intro hn
        exact nomatch hn
      intro pids2 hp2
      injection hp2 with hp2
      subst hp2
      refine ⟨[], ?_, ?_, by simp [postAssetRows]⟩
      · simp only [resolveAssetIds]
        rw [if_pos hp]
      · rw [List.isEmpty_iff.mp hp]
    · rw [if_neg hp] at h
      cases hres : resolveAssetIds db.assets (some pids) with
      | error e =>
        rw [hres] at h
        exact absurd h (by simp)
      | ok assetIds =>
        rw [hres] at h
        injection h with h
        injection h with h1 h2
        subst h1
        refine ⟨rfl, rfl, rfl, rfl, ?_, ?_⟩
        · intro hn
          exact nomatch hn
        intro pids2 hp2
        injection hp2 with hp2
        subst hp2
        exact ⟨assetIds, hres, resolveAssetIds_ok_length db.assets pids assetIds hres, rfl⟩

theorem statusStep_ok_inv (o : Oracle) (db : DB) (eff : Eff) (post : Post)
    (prev : ContentStatus) (ps : Option ContentStatus) (ptf : Option Bool)
    (user : Option User) (now : Nat) (post3 : Post) (db2 : DB) (eff1 : Eff)
    (h : statusStep o db eff post prev ps ptf user now = .ok (post3, db2, eff1)) :
    (db2.posts = db.posts ∧ db2.assets = db.assets ∧
     db2.postAssets = db.postAssets ∧ db2.revisions = db.revisions) ∧
    post3.id = post.id ∧ post3.title = post.title ∧ post3.slug = post.slug ∧
    post3.excerpt = post.excerpt ∧ post3.contentHtml = post.contentHtml ∧
    post3.metaTitle = post.metaTitle ∧ post3.metaDescription = post.metaDescription := by
  cases ps with
  | none =>
    injection h with h
    injection h with h1 h2
    injection h2 with h2 h3
    subst h1 h2
    exact ⟨⟨rfl, rfl, rfl, rfl⟩, rfl, rfl, rfl, rfl, rfl, rfl, rfl⟩
  | some st =>
    simp only [statusStep] at h
    split at h
    · split at h
      · split at h
        · simp at h
        · rename_i dbp effp heq
          injection h with h
          injection h with h1 h2
          injection h2 with h2 h3
          subst h1 h2
          obtain ⟨hp, hpa, ha, hr⟩ := publishToFacebook_ok_inv _ _ _ _ _ _ _ _ heq
          exact ⟨⟨hp, ha, hpa, hr⟩, rfl, rfl, rfl, rfl, rfl, rfl, rfl⟩
      · injection h with h
        injection h with h1 h2
        injection h2 with h2 h3
        subst h1 h2
        exact ⟨⟨rfl, rfl, rfl, rfl⟩, rfl, rfl, rfl, rfl, rfl, rfl, rfl⟩
    · split at h
      · injection h with h
        injection h with h1 h2
        injection h2 with h2 h3
        subst h1 h2
        obtain ⟨hp, hpa, ha, hr⟩ := deleteFromFacebook_fields o db eff _ user
        exact ⟨⟨hp, ha, hpa, hr⟩, rfl, rfl, rfl, rfl, rfl, rfl, rfl⟩
      · split at h
        · split at h
          · injection h with h
            injection h with h1 h2
            injection h2 with h2 h3
            subst h1 h2
            obtain ⟨hp, hpa, ha, hr⟩ := deleteFromFacebook_fields o db eff _ user
            exact ⟨⟨hp, ha, hpa, hr⟩, rfl, rfl, rfl, rfl, rfl, rfl, rfl⟩
          · split at h
            · injection h with h
              injection h with h1 h2
              injection h2 with h2 h3
              subst h1 h2
              exact ⟨⟨rfl, rfl, rfl, rfl⟩, rfl, rfl, rfl, rfl, rfl, rfl, rfl⟩
            · split at h
              · simp at h
              · rename_i dbp effp heq
                injection h with h
                injection h with h1 h2
                injection h2 with h2 h3
                subst h1 h2
                obtain ⟨hp, hpa, ha, hr⟩ := publishToFacebook_ok_inv _ _ _ _ _ _ _ _ heq
                exact ⟨⟨hp, ha, hpa, hr⟩, rfl, rfl, rfl, rfl, rfl, rfl, rfl⟩
        · injection h with h
          injection h with h1 h2
          injection h2 with h2 h3
          subst h1 h2
          exact ⟨⟨rfl, rfl, rfl, rfl⟩, rfl, rfl, rfl, rfl, rfl, rfl, rfl⟩

theorem contentSyncStep_ok_inv (o : Oracle) (db : DB) (eff : Eff) (post : Post)
    (prev : ContentStatus) (changed : Bool) (ptf : Option Bool) (user : Option User)
    (db3 : DB) (eff2 : Eff)
    (h : contentSyncStep o db eff post prev changed ptf user = .ok (db3, eff2)) :
    db3.posts = db.posts ∧ db3.assets = db.assets ∧
    db3.postAssets = db.postAssets ∧ db3.revisions = db.revisions := by
  simp only [contentSyncStep] at h
  split at h
  · split at h
    · injection h with h
      injection h with h1 h2
      subst h1
      obtain ⟨hp, hpa, ha, hr⟩ := deleteFromFacebook_fields o db eff post.id user
      exact ⟨hp, ha, hpa, hr⟩
    · have hd := deleteFromFacebook_fields o db eff post.id user
      obtain ⟨hp, hpa, ha, hr⟩ := publishToFacebook_ok_inv _ _ _ _ _ _ _ _ h
      exact ⟨hp.trans hd.1, ha.trans hd.2.2.1, hpa.trans hd.2.1, hr.trans hd.2.2.2⟩
  · injection h with h
    injection h with h1 h2
    subst h1
    exact ⟨rfl, rfl, rfl, rfl⟩

theorem mergePost_appendRevision_posts (db : DB) (p : Post) :
    (appendRevision (mergePost db p) p).posts =
      db.posts.map (fun q => if q.id == p.id then p else q) := rfl

theorem mergePost_appendRevision_postAssets (db : DB) (p : Post) :
    (appendRevision (mergePost db p) p).postAssets = db.postAssets := rfl

/-- C3: a successful `update_news` run has tri-state field semantics on the
plain content fields — an omitted field keeps the stored value, a supplied
value (including the empty one, which clears the content) replaces it — and
the post row is the only row rewritten; a supplied media list replaces the
`PostAsset` rows wholesale (every row of the post deleted, fresh rows at
positions `0..n-1` in payload order), while an omitted list leaves the rows
untouched. -/
theorem claim_C3_tri_state_update (te : TextEnv) (o : Oracle) (db : DB)
    (newsId : Nat) (payload : NewsUpdatePayload) (user : Option User) (now : Nat)
    (db2 : DB) (eff : Eff) (post : Post)
    (hok : updateNews te o db newsId payload user now = .ok (db2, eff))
    (hpost : getNewsOr404 db newsId = .ok post) :
    ∃ post2,
      db2.posts = db.posts.map (fun p => if p.id == post.id then post2 else p) ∧
      post2.id = post.id ∧
      (payload.excerpt = none → post2.excerpt = post.excerpt) ∧
      (∀ v, payload.excerpt = some v → post2.excerpt = some v) ∧
      (payload.contentHtml = none → post2.contentHtml = post.contentHtml) ∧
      (∀ v, payload.contentHtml = some v → post2.contentHtml = v) ∧
      (payload.metaTitle = none → post2.metaTitle = post.metaTitle) ∧
      (∀ v, payload.metaTitle = some v → post2.metaTitle = some v) ∧
      (payload.metaDescription = none → post2.metaDescription = post.metaDescription) ∧
      (∀ v, payload.metaDescription = some v → post2.metaDescription = some v) ∧
      (payload.contentAssetPublicIds = none → db2.postAssets = db.postAssets) ∧
      (∀ pids, payload.contentAssetPublicIds = some pids →
        ∃ assetIds, resolveAssetIds db.assets (some pids) = .ok assetIds ∧
          assetIds.length = pids.length ∧
          db2.postAssets =
            db.postAssets.filter (fun pa => pa.postId != post.id) ++
              postAssetRows post.id assetIds) := by
  simp only [updateNews, hpost] at hok
  cases htitle : applyTitle te db post payload.title with
  | error e => rw [htitle] at hok; simp at hok
  | ok post1 =>
    rw [htitle] at hok
    simp only [] at hok
    cases hmedia : applyMedia db (applySimpleFields post1 payload).id
        payload.contentAssetPublicIds with
    | error e => rw [hmedia] at hok; simp at hok
    | ok pr =>
      obtain ⟨db1, chg⟩ := pr
      rw [hmedia] at hok
      simp only [] at hok
      cases hstat : statusStep o db1 {} (applySimpleFields post1 payload) post.status
          payload.status payload.publishToFacebook user now with
      | error e => rw [hstat] at hok; simp at hok
      | ok tr =>
        obtain ⟨post3, db2m, eff1⟩ := tr
        rw [hstat] at hok
        simp only [] at hok
        cases hcs : contentSyncStep o db2m eff1 post3 post.status
            (hasContentChanges payload) payload.publishToFacebook user with
        | error e => rw [hcs] at hok; simp at hok
        | ok pr2 =>
          obtain ⟨db3, eff2⟩ := pr2
          rw [hcs] at hok
          simp only [] at hok
          injection hok with hok
          injection hok with hok1 hok2
          subst hok1
          obtain ⟨ht_id, ht_st, ht_pub, ht_ex, ht_ch, ht_mt, ht_md, ht_none, ht_some⟩ :=
            applyTitle_ok_inv te db post payload.title post1 htitle
          obtain ⟨hs_id, hs_st, hs_ti, hs_sl, hs_pa⟩ := applySimpleFields_spec post1 payload
          obtain ⟨hsf_ex, hsf_ch, hsf_mt, hsf_md⟩ := applySimpleFields_fields post1 payload
          obtain ⟨hm_posts, hm_assets, hm_rev, hm_logs, hm_none, hm_some⟩ :=
            applyMedia_ok_inv db (applySimpleFields post1 payload).id
              payload.contentAssetPublicIds db1 chg hmedia
          obtain ⟨⟨hst_posts, hst_assets, hst_pa, hst_rev⟩,
              h3id, h3ti, h3sl, h3ex, h3ch, h3mt, h3md⟩ :=
            statusStep_ok_inv o db1 {} (applySimpleFields post1 payload) post.status
              payload.status payload.publishToFacebook user now post3 db2m eff1 hstat
          obtain ⟨hcs_posts, hcs_assets, hcs_pa, hcs_rev⟩ :=
            contentSyncStep_ok_inv o db2m eff1 post3 post.status
              (hasContentChanges payload) payload.publishToFacebook user db3 eff2 hcs
          have hid2 : (applySimpleFields post1 payload).id = post.id := by
            rw [hs_id, ht_id]
          refine ⟨{ post3 with updatedAt := now }, ?_, ?_, ?_, ?_, ?_, ?_, ?_, ?_,
            ?_, ?_, ?_, ?_⟩
          · rw [mergePost_appendRevision_posts, hcs_posts, hst_posts, hm_posts]
            simp only [h3id, hs_id, ht_id]
          · show post3.id = post.id
            rw [h3id, hid2]
          · intro hn
            show post3.excerpt = post.excerpt
            rw [h3ex, hsf_ex.1 hn, ht_ex]
          · intro v hv
            show post3.excerpt = some v
            rw [h3ex, hsf_ex.2 v hv]
          · intro hn
            show post3.contentHtml = post.contentHtml
            rw [h3ch, hsf_ch.1 hn, ht_ch]
          · intro v hv
            show post3.contentHtml = v
            rw [h3ch, hsf_ch.2 v hv]
          · intro hn
            show post3.metaTitle = post.metaTitle
            rw [h3mt, hsf_mt.1 hn, ht_mt]
          · intro v hv
            show post3.metaTitle = some v
            rw [h3mt, hsf_mt.2 v hv]
          · intro hn
            show post3.metaDescription = post.metaDescription
            rw [h3md, hsf_md.1 hn, ht_md]
          · intro v hv
            show post3.metaDescription = some v
            rw [h3md, hsf_md.2 v hv]
          · intro hn
            rw [mergePost_appendRevision_postAssets, hcs_pa, hst_pa, hm_none hn]
          · intro pids hp
            obtain ⟨assetIds, hres, hlen, hpa⟩ := hm_some pids hp
            refine ⟨assetIds, hres, hlen, ?_⟩
            rw [mergePost_appendRevision_postAssets, hcs_pa, hst_pa, hpa]
            simp only [hid2]

theorem claim_C3_tri_state_update_witness :
    ∃ post2 : Post,
      post2.id = postDraft.id ∧ post2.excerpt = some "tom-tat" ∧
      post2.contentHtml = postDraft.contentHtml ∧
      ∃ assetIds, resolveAssetIds dbDraft.assets (some [100]) = .ok assetIds ∧
        assetIds.length = 1 := by
  obtain ⟨post2, hmap, hid, hexn, hexs, hchn, hchs, hmtn, hmts, hmdn, hmds, hmn, hms⟩ :=
    claim_C3_tri_state_update asciiTextEnv oracleOk dbDraft 2
      { excerpt := some "tom-tat", contentAssetPublicIds := some [100] } none 9
      _ _ postDraft rfl rfl
  obtain ⟨assetIds, hres, hlen, hpa⟩ := hms [100] rfl
  exact ⟨post2, hid, hexs "tom-tat" rfl, hchn rfl, assetIds, hres, hlen⟩

/-- C6 (corrected): on update, a supplied title does re-derive the stored
slug — an empty derivation fails with 400 `invalid_slug` and a collision
with another non-deleted news row fails with 409 `slug_conflict` — but a
slug supplied in the update payload is never applied: for every value of
`payload.slug`, a successful update stores the slug derived from the
supplied title, or keeps the previous slug when no title is supplied, so
the directly supplied slug is ignored rather than accepted as an
override. -/
theorem claim_C6_slug_rederivation (te : TextEnv) (o : Oracle) (db : DB)
    (newsId : Nat) (payload : NewsUpdatePayload) (user : Option User) (now : Nat)
    (post : Post) (hpost : getNewsOr404 db newsId = .ok post) :
    (∀ t, payload.title = some t → slugifyStr te t = "" →
      updateNews te o db newsId payload user now =
        .error { statusCode := 400, code := "invalid_slug",
                 message := "Khong the sinh slug hop le tu tieu de." }) ∧
    (∀ t, payload.title = some t → slugifyStr te t ≠ "" →
      slugConflict db (slugifyStr te t) (some post.id) = true →
      updateNews te o db newsId payload user now =
        .error { statusCode := 409, code := "slug_conflict",
                 message := "Slug da duoc su dung cho mot tin tuc khac." }) ∧
    (∀ db2 eff, updateNews te o db newsId payload user now = .ok (db2, eff) →
      ∃ post2,
        db2.posts = db.posts.map (fun p => if p.id == post.id then post2 else p) ∧
        post2.slug = (match payload.title with
          | some t => slugifyStr te t
          | none => post.slug)) := by
  refine ⟨?_, ?_, ?_⟩
  · intro t ht hs
    simp only [updateNews, hpost]
    rw [ht]
    have hat : applyTitle te db post (some t) =
        .error { statusCode := 400, code := "invalid_slug",
                 message := "Khong the sinh slug hop le tu tieu de." } := by
      simp only [applyTitle]
      rw [if_pos hs]
    rw [hat]
  · intro t ht hs hc
    simp only [updateNews, hpost]
    rw [ht]
    have hat : applyTitle te db post (some t) =
        .error { statusCode := 409, code := "slug_conflict",
                 message := "Slug da duoc su dung cho mot tin tuc khac." } := by
      simp only [applyTitle]
      rw [if_neg hs, if_pos hc]
    rw [hat]
  · intro db2 eff hok
    simp only [updateNews, hpost] at hok
    cases htitle : applyTitle te db post payload.title with
    | error e => rw [htitle] at hok; simp at hok
    | ok post1 =>
      rw [htitle] at hok
      simp only [] at hok
      cases hmedia : applyMedia db (applySimpleFields post1 payload).id
          payload.contentAssetPublicIds with
      | error e => rw [hmedia] at hok; simp at hok
      | ok pr =>
        obtain ⟨db1, chg⟩ := pr
        rw [hmedia] at hok
        simp only [] at hok
        cases hstat : statusStep o db1 {} (applySimpleFields post1 payload) post.status
            payload.status payload.publishToFacebook user now with
        | error e => rw [hstat] at hok; simp at hok
        | ok tr =>
          obtain ⟨post3, db2m, eff1⟩ := tr
          rw [hstat] at hok
          simp only [] at hok
          cases hcs : contentSyncStep o db2m eff1 post3 post.status
              (hasContentChanges payload) payload.publishToFacebook user with
          | error e => rw [hcs] at hok; simp at hok
          | ok pr2 =>
            obtain ⟨db3, eff2⟩ := pr2
            rw [hcs] at hok
            simp only [] at hok
            injection hok with hok
            injection hok with hok1 hok2
            subst hok1
            obtain ⟨ht_id, ht_st, ht_pub, ht_ex, ht_ch, ht_mt, ht_md, ht_none, ht_some⟩ :=
              applyTitle_ok_inv te db post payload.title post1 htitle
            obtain ⟨hs_id, hs_st, hs_ti, hs_sl, hs_pa⟩ := applySimpleFields_spec post1 payload
            obtain ⟨hm_posts, hm_assets, hm_rev, hm_logs, hm_none, hm_some⟩ :=
              applyMedia_ok_inv db (applySimpleFields post1 payload).id
                payload.contentAssetPublicIds db1 chg hmedia
            obtain ⟨⟨hst_posts, hst_assets, hst_pa, hst_rev⟩,
                h3id, h3ti, h3sl, h3ex, h3ch, h3mt, h3md⟩ :=
              statusStep_ok_inv o db1 {} (applySimpleFields post1 payload) post.status
                payload.status payload.publishToFacebook user now post3 db2m eff1 hstat
            obtain ⟨hcs_posts, hcs_assets, hcs_pa, hcs_rev⟩ :=
              contentSyncStep_ok_inv o db2m eff1 post3 post.status
                (hasContentChanges payload) payload.publishToFacebook user db3 eff2 hcs
            refine ⟨{ post3 with updatedAt := now }, ?_, ?_⟩
            · rw [mergePost_appendRevision_posts, hcs_posts, hst_posts, hm_posts]
              simp only [h3id, hs_id, ht_id]
            · show post3.slug = _
              rw [h3sl, hs_sl]
              cases ht : payload.title with
              | none =>
                rw [ht] at ht_none
                rw [ht_none rfl]
              | some t =>
                rw [ht] at ht_some
                exact (ht_some t rfl).2

/-- Counterexample to the override clause of C6: an update supplying only a
slug succeeds but stores a post whose slug is the old one, not the supplied
override. -/
theorem claim_C6_slug_rederivation_counterexample :
    ∃ db2 eff, updateNews asciiTextEnv oracleOk dbDraft 2
        { slug := some "custom-slug" } none 9 = .ok (db2, eff) ∧
      ∀ p ∈ db2.posts, p.slug = "ban-nhap" ∧ p.slug ≠ "custom-slug" := by
  refine ⟨_, _, rfl, ?_⟩
  decide

theorem claim_C6_slug_rederivation_witness :
    updateNews asciiTextEnv oracleOk dbDraft 2
        { title := some "", slug := some "xyz" } none 9 =
      .error { statusCode := 400, code := "invalid_slug",
               message := "Khong the sinh slug hop le tu tieu de." } :=
  (claim_C6_slug_rederivation asciiTextEnv oracleOk dbDraft 2
      { title := some "", slug := some "xyz" } none 9 postDraft rfl).1 "" rfl rfl

theorem claim_C9_asset_resolution_witness :
    ∃ e, resolveAssetIds [assetImg] (some [100, 999]) = .error e ∧
      e.statusCode = 400 ∧ e.code = "invalid_asset" ∧
      (∀ q, q ∈ e.detail ↔
        q ∈ [100, 999] ∧ ∀ a ∈ [assetImg], ¬(a.publicId = q ∧ a.deletedAt = none)) :=
  (claim_C9_asset_resolution [assetImg] [100, 999]).2.1
    ⟨999, by decide, by decide⟩
